import Mathlib

/-!
# Cloudflare gateway controller: ingress rule ordering, config artifact, route merge,
class validation, tunnel provisioning

Shallow embedding of
* `internal/clients/cf/tunnel_config_file.go` (`IngressConfig`, `TunnelConfigFile`,
  `NewTunnelConfigFile`, `validate`, `Sort`),
* `internal/controller/http_route/controller.go` (`upsertConfigMap`,
  `buildRoutingFragment`),
* `internal/controller/gateway_class` (`validateConfig`, `validateToken`, `validate`,
  `reject`, `accept`, `Reconcile`),
* `internal/clients/k8s` (`GenerateRandomString` and the builders),
* `internal/clients/cf/api.go` (`TunnelExists`, `CreateTunnel`),
* `internal/clients/cf/tunnel_credentials.go` (`NewTunnelCredentials`),
* `internal/controller/gateway/controller.go` (`isMine`, `getConfigFromGatewayClass`,
  the `ensure` steps, `Reconcile`).

Go strings are byte sequences. The strings this program handles are decoded from JSON,
which yields valid UTF-8, so they are Lean `String`s here: `len` is the number of UTF-8
bytes (`String.utf8ByteSize`), and Go's byte-wise `<` on valid UTF-8 is the
lexicographic order of the code points.

A Go run-time panic is the result `none`.
-/

namespace cf

/-- The constant `IngressDefaultBackend`. -/
def IngressDefaultBackend : String := "http_status:404"

/-- The struct `IngressConfig`. -/
structure IngressConfig where
  Hostname : String
  Service : String
  deriving DecidableEq, Repr

/-- The struct `TunnelConfigFile`. -/
structure TunnelConfigFile where
  TunnelId : String
  CredentialsFilePath : String
  Ingress : List IngressConfig
  deriving DecidableEq, Repr

/-- The variable `IngressDefaultBackendConfig`. -/
def IngressDefaultBackendConfig : IngressConfig :=
  { Hostname := "", Service := IngressDefaultBackend }

/-- Go's `a < b` on strings, on the code points of the two strings: the first position
where they differ decides, and a proper prefix is smaller. -/
def strLt : List Char → List Char → Bool
  | _, [] => false
  | [], _ :: _ => true
  | a :: as, b :: bs =>
    if a < b then true else if b < a then false else strLt as bs

/-- The expression `h[0:2] == "*."` of `Sort`: the slice expression panics (`none`)
when `h` has fewer than two bytes; two bytes of valid UTF-8 are `*.` exactly when the
first two code points are `*` and `.`. -/
def sliceIsWildcard (h : String) : Option Bool :=
  if h.utf8ByteSize < 2 then none else some (h.data.take 2 == ['*', '.'])

/-- The comparison function that `Sort` hands to `sort.SliceStable`, on the two
elements `routes[i]` (here `ri`) and `routes[j]` (here `rj`); both slice expressions are
evaluated before the wildcard tests. -/
def less (ri rj : IngressConfig) : Option Bool :=
  if ri.Hostname = "" then some false
  else if rj.Hostname = "" then some true
  else
    match sliceIsWildcard ri.Hostname with
    | none => none
    | some isWildcardI =>
      match sliceIsWildcard rj.Hostname with
      | none => none
      | some isWildcardJ =>
        if isWildcardI && !isWildcardJ then some false
        else if !isWildcardI && isWildcardJ then some true
        else some (strLt ri.Hostname.data rj.Hostname.data)

/-- Inner loop of the insertion sort, `for j := i; j > a && less(j, j-1); j--` with a
swap of `j` and `j-1` in its body: the element `x` that started at index `i` moves
left past every neighbour it is less than. `left` is the part of the slice below the
element, nearest neighbour first; the result is that part with `x` in its place, in
the same reversed order. -/
def insertLeft (x : IngressConfig) : List IngressConfig → Option (List IngressConfig)
  | [] => some [x]
  | y :: left =>
    match less x y with
    | none => none
    | some true =>
      match insertLeft x left with
      | none => none
      | some r => some (y :: r)
    | some false => some (x :: y :: left)

/-- Outer loop of the insertion sort, `for i := a + 1; i < b; i++`: `done` is the
sorted part of the slice (reversed), `rest` the elements from index `i` on. -/
def insertionSort : List IngressConfig → List IngressConfig → Option (List IngressConfig)
  | done, [] => some done.reverse
  | done, x :: rest =>
    match insertLeft x done with
    | none => none
    | some done1 => insertionSort done1 rest

/-- The call `sort.SliceStable(routes, less)` of Go's standard library, which is not
part of the repository. On a slice of at most 20 elements the library runs exactly
this insertion sort. On a longer slice it insertion-sorts blocks of 20 elements and
merges neighbouring blocks, calling `less` on other pairs; when no comparison panics
the result is the same, the output of a stable sort by a strict weak order being
unique (`stable_sort_unique` below). -/
def SliceStable (routes : List IngressConfig) : Option (List IngressConfig) :=
  insertionSort [] routes

/-- The function `Sort` (`Sort` is a reserved word of Lean, hence the name). After the
stable sort, when the last element is a catch-all the code re-appends it to the slice
without it: `append(routes[:len-1], catchAll)`. The sort works in place and so does
this `append`, the capacity being there: the slice the caller passed holds the
returned elements. -/
def SortRoutes (routes : List IngressConfig) : Option (List IngressConfig) :=
  match SliceStable routes with
  | none => none
  | some sorted =>
    match sorted.getLast? with
    | some last =>
      if last.Hostname = "" then some (sorted.dropLast ++ [last]) else some sorted
    | none => some sorted

/-- The first component of the ordering key: the rule is a catch-all (its hostname is
empty). -/
def isCatchAll (r : IngressConfig) : Bool := decide (r.Hostname = "")

/-- The second component of the ordering key: the hostname begins with `*.`. -/
def isWildcard (r : IngressConfig) : Bool := r.Hostname.data.take 2 == ['*', '.']

/-- The order of the specification on the key (is-catch-all, is-wildcard, hostname),
most significant component first, `false` before `true`, hostnames in ascending
lexicographic order: `keyLt a b` says that the key of `a` is strictly smaller. -/
def keyLt (a b : IngressConfig) : Bool :=
  if isCatchAll a != isCatchAll b then isCatchAll b
  else if isWildcard a != isWildcard b then isWildcard b
  else strLt a.Hostname.data b.Hostname.data

/-- A hostname the comparison of `Sort` can slice: empty, or of at least two bytes. -/
def sliceable (h : String) : Prop := h = "" ∨ 2 ≤ h.utf8ByteSize

/-- The slice order, read on a reversed part of the slice: no element is smaller than
one that stands below it. -/
def SortedRev (l : List IngressConfig) : Prop := l.Pairwise (fun a b => keyLt a b = false)

deriving instance DecidableEq for Except

/-- The construction invariants of the specification: tunnel id non-empty, rule list
non-empty, last rule's hostname empty. -/
def ConstructionInvariants (t : TunnelConfigFile) : Prop :=
  t.TunnelId ≠ "" ∧ t.Ingress ≠ [] ∧ ∃ last, t.Ingress.getLast? = some last ∧ last.Hostname = ""

/-- The method `validate`. A Go `error` is its message; `nil` is `Except.ok`.
`getLast?` is `none` exactly when `len(t.Ingress) == 0`, and is the element at index
`len(t.Ingress)-1` otherwise. -/
def validate (t : TunnelConfigFile) : Except String Unit :=
  if t.TunnelId = "" then .error "TunnelId is empty"
  else
    match t.Ingress.getLast? with
    | none => .error "Ingress is empty"
    | some last =>
      if last.Hostname ≠ "" then
        .error ("Last ingress rule must be a catch-all with no hostname identifier e.g. `- service: "
          ++ IngressDefaultBackend ++ "`")
      else .ok ()

end cf

namespace k8s

/-- The constant `ConfigYamlFileName`. -/
def ConfigYamlFileName : String := "config.yaml"

/-- The constant `DeploymentCredentialFilePath`. -/
def DeploymentCredentialFilePath : String := "/etc/cloudflared/creds/creds.json"

end k8s

namespace cf

/-- The function `NewTunnelConfigFile`; `errors.Wrap(err, msg)` has the message
`msg: err`. `getLast?` is `none` exactly when `length == 0`, and is
`ingressConfig[length-1]` otherwise. On an error the Go function also returns an empty
artifact, which no caller reads. -/
def NewTunnelConfigFile (tunnelId : String) (ingressConfig : List IngressConfig) :
    Except String TunnelConfigFile :=
  let ingressConfig1 :=
    match ingressConfig.getLast? with
    | none => ingressConfig ++ [IngressDefaultBackendConfig]
    | some last =>
      if last.Hostname ≠ "" then ingressConfig ++ [IngressDefaultBackendConfig]
      else ingressConfig
  let tunnelConfig : TunnelConfigFile :=
    { TunnelId := tunnelId
      CredentialsFilePath := k8s.DeploymentCredentialFilePath
      Ingress := ingressConfig1 }
  match validate tunnelConfig with
  | .error err => .error ("failed to validate config file: " ++ err)
  | .ok _ => .ok tunnelConfig

end cf

namespace http_route

open cf

/-- The calls `json.Unmarshal` into a `TunnelConfigFile` and `json.Marshal` of one, of
Go's standard library, which is not part of the repository: they are parameters of
the model. A rule list of length 0 stands for both a nil and an empty slice. -/
structure JsonCodec where
  Unmarshal : String → Except String TunnelConfigFile
  Marshal : TunnelConfigFile → Except String String

/-- The part of a `corev1.ConfigMap` the route controller uses: the map `Data`, as the
list of its entries. A nil map reads like the empty one; the write to it is not
reached, `json.Unmarshal` rejecting the empty string that the read gives. -/
structure ConfigMap where
  Data : List (String × String)
  deriving DecidableEq, Repr

/-- The map read `configMap.Data[key]`: the empty string for a missing key. -/
def ConfigMap.get (configMap : ConfigMap) (key : String) : String :=
  match configMap.Data.lookup key with
  | some v => v
  | none => ""

/-- The map write `configMap.Data[key] = value`. -/
def ConfigMap.set (configMap : ConfigMap) (key value : String) : ConfigMap :=
  { Data := (key, value) :: configMap.Data.filter (fun kv => kv.1 ≠ key) }

/-- The inner loop of `upsertConfigMap`, over the persisted rules, for one candidate
`newRoute`; the value is `routesToAdd`. The assignment
`existingRoute.Service = newRoute.Service` writes to the loop variable, which is a copy
of the slice element, so the persisted rules are the same after it. -/
def routesToAddFor (newRoute : IngressConfig) :
    List IngressConfig → List IngressConfig → List IngressConfig
  | [], routesToAdd => routesToAdd
  | existingRoute :: rest, routesToAdd =>
    if newRoute.Hostname ≠ existingRoute.Hostname then routesToAddFor newRoute rest routesToAdd
    else if newRoute.Service ≠ existingRoute.Service then
      routesToAddFor newRoute rest routesToAdd
    else routesToAddFor newRoute rest (routesToAdd ++ [newRoute])

/-- The outer loop of `upsertConfigMap`, over the candidate rules. -/
def routesToAdd (existing : List IngressConfig) :
    List IngressConfig → List IngressConfig → List IngressConfig
  | [], acc => acc
  | newRoute :: rest, acc => routesToAdd existing rest (routesToAddFor newRoute existing acc)

/-- The value of `newTunnelConfigFile` that `upsertConfigMap` serializes: the persisted
artifact with the rules `append(existingTunnelConfig.Ingress, routesToAdd...)`, sorted
in place by `cf.Sort`. It is `none` when `cf.Sort` panics. -/
def mergedConfig (existingTunnelConfig : TunnelConfigFile) (newConfig : List IngressConfig) :
    Option TunnelConfigFile :=
  match SortRoutes (existingTunnelConfig.Ingress
      ++ routesToAdd existingTunnelConfig.Ingress newConfig []) with
  | none => none
  | some sorted => some { existingTunnelConfig with Ingress := sorted }

/-- What a call of `upsertConfigMap` leaves behind: the error it returns, the config
map object it was given, and the calls of the store's `Update` it made. -/
structure UpsertResult where
  err : Option String
  configMap : ConfigMap
  updateCalls : List ConfigMap
  deriving DecidableEq, Repr

/-- The method `upsertConfigMap`. `Update` is the store's answer to `r.Update`, the
error it returns. The result is `none` when the call panics. -/
def upsertConfigMap (J : JsonCodec) (Update : ConfigMap → Option String)
    (configMap : ConfigMap) (newConfig : List IngressConfig) : Option UpsertResult :=
  let existingConfigString := configMap.get k8s.ConfigYamlFileName
  match J.Unmarshal existingConfigString with
  | .error err =>
    some { err := some ("failed to unmarshal existing configmap: " ++ err)
           configMap := configMap, updateCalls := [] }
  | .ok existingTunnelConfig =>
    match mergedConfig existingTunnelConfig newConfig with
    | none => none
    | some newTunnelConfigFile =>
      match J.Marshal newTunnelConfigFile with
      | .error err =>
        some { err := some ("failed to marshal new configmap: " ++ err)
               configMap := configMap, updateCalls := [] }
      | .ok newConfigString =>
        if existingConfigString = newConfigString then
          some { err := none, configMap := configMap, updateCalls := [] }
        else
          let configMap1 := configMap.set k8s.ConfigYamlFileName newConfigString
          some { err := Update configMap1, configMap := configMap1,
                 updateCalls := [configMap1] }

/-- The calls of the store's `Update` a run made; a run that panicked in `cf.Sort`
made none, the call coming after it. -/
def updatesIssued : Option UpsertResult → List ConfigMap
  | none => []
  | some r => r.updateCalls

/-! ### A concrete JSON codec for the runs on concrete inputs

The encoder writes what `json.Marshal` writes for a `TunnelConfigFile` whose strings
need no escaping: no quote, backslash or control character, and none of `<`, `>` and
`&`, which `json.Marshal` writes as `\u003c`, `\u003e` and `\u0026` (fields in
declaration order, no white space, `hostname` left out when empty as `omitempty`
asks). The decoder reads back such texts and the empty array, on which it agrees with
`json.Unmarshal`, and rejects every other text, also those `json.Unmarshal` reads
(white space, escapes, members in another order). The runs on concrete inputs use only
texts of the first kind. -/

/-- A JSON string literal, for a string that needs no escaping. -/
def quote (s : String) : String := "\"" ++ s ++ "\""

/-- The encoding of one `IngressConfig`. -/
def encodeRule (r : IngressConfig) : String :=
  if r.Hostname = "" then "\x7b\"service\":" ++ quote r.Service ++ "\x7d"
  else "\x7b\"hostname\":" ++ quote r.Hostname ++ ",\"service\":" ++ quote r.Service ++ "\x7d"

/-- The encodings of the rules, separated by commas. -/
def encodeRules : List IngressConfig → String
  | [] => ""
  | [r] => encodeRule r
  | r :: rs => encodeRule r ++ "," ++ encodeRules rs

/-- The encoding of a `TunnelConfigFile`; a rule list of length 0 is written as the
nil slice is, `null`. -/
def encodeConfig (t : TunnelConfigFile) : String :=
  "\x7b\"tunnel\":" ++ quote t.TunnelId
    ++ ",\"credentials-file\":" ++ quote t.CredentialsFilePath
    ++ ",\"ingress\":" ++ (if t.Ingress = [] then "null" else "[" ++ encodeRules t.Ingress ++ "]")
    ++ "\x7d"

/-- Reads the literal `lit` off the front of `s`. -/
def expect : List Char → List Char → Option (List Char)
  | [], s => some s
  | _ :: _, [] => none
  | c :: lit, d :: s => if c = d then expect lit s else none

/-- Reads the characters of a string literal up to its closing quote; an escape
sequence is outside what this decoder reads. -/
def readChars : List Char → Option (List Char × List Char)
  | [] => none
  | c :: s =>
    if c = '"' then some ([], s)
    else if c = '\\' then none
    else
      match readChars s with
      | none => none
      | some (cs, s1) => some (c :: cs, s1)

/-- Reads the member `"key":"value"` and gives the value. -/
def readMember (key : String) (s : List Char) : Option (String × List Char) :=
  match expect (quote key ++ ":\"").data s with
  | none => none
  | some s1 =>
    match readChars s1 with
    | none => none
    | some (cs, s2) => some (String.mk cs, s2)

/-- Reads one rule object, with or without the member `hostname`. -/
def readRule (s : List Char) : Option (IngressConfig × List Char) :=
  match expect "\x7b".data s with
  | none => none
  | some s1 =>
    match readMember "hostname" s1 with
    | some (h, s2) =>
      if h = "" then none
      else
        match expect ",".data s2 with
        | none => none
        | some s3 =>
          match readMember "service" s3 with
          | none => none
          | some (v, s4) =>
            match expect "\x7d".data s4 with
            | none => none
            | some s5 => some ({ Hostname := h, Service := v }, s5)
    | none =>
      match readMember "service" s1 with
      | none => none
      | some (v, s2) =>
        match expect "\x7d".data s2 with
        | none => none
        | some s3 => some ({ Hostname := "", Service := v }, s3)

/-- Reads the rules of a non-empty array, after its opening bracket, up to and with
its closing bracket; `fuel` bounds the number of rules. -/
def readRules : Nat → List Char → Option (List IngressConfig × List Char)
  | 0, _ => none
  | fuel + 1, s =>
    match readRule s with
    | none => none
    | some (r, s1) =>
      match expect "]".data s1 with
      | some s2 => some ([r], s2)
      | none =>
        match expect ",".data s1 with
        | none => none
        | some s2 =>
          match readRules fuel s2 with
          | none => none
          | some (rs, s3) => some (r :: rs, s3)

/-- Reads the value of the member `ingress`: `null`, the empty array or an array of
rules. -/
def readIngress (s : List Char) : Option (List IngressConfig × List Char) :=
  match expect "null".data s with
  | some s1 => some ([], s1)
  | none =>
    match expect "[".data s with
    | none => none
    | some s1 =>
      match expect "]".data s1 with
      | some s2 => some ([], s2)
      | none => readRules s1.length s1

/-- Reads a whole artifact. -/
def readConfig (s : List Char) : Option TunnelConfigFile :=
  match expect "\x7b".data s with
  | none => none
  | some s1 =>
    match readMember "tunnel" s1 with
    | none => none
    | some (t, s2) =>
      match expect ",".data s2 with
      | none => none
      | some s3 =>
        match readMember "credentials-file" s3 with
        | none => none
        | some (c, s4) =>
          match expect ",\"ingress\":".data s4 with
          | none => none
          | some s5 =>
            match readIngress s5 with
            | none => none
            | some (rs, s6) =>
              if s6 = "\x7d".data then
                some { TunnelId := t, CredentialsFilePath := c, Ingress := rs }
              else none

/-- The concrete codec. -/
def plainJson : JsonCodec where
  Unmarshal := fun s =>
    match readConfig s.data with
    | some t => .ok t
    | none => .error "invalid character"
  Marshal := fun t => .ok (encodeConfig t)

/-- A store whose `Update` succeeds. -/
def updateOk : ConfigMap → Option String := fun _ => none

/-- The config map holding `text` under `config.yaml`. -/
def configMapOf (text : String) : ConfigMap := { Data := [(k8s.ConfigYamlFileName, text)] }

/-- The serialized artifact of tunnel `t1` with the default catch-all as its only
rule. -/
def textCatchAll : String :=
  "\x7b\"tunnel\":\"t1\",\"credentials-file\":\"/etc/cloudflared/creds/creds.json\",\"ingress"
    ++ "\":[\x7b\"service\":\"http_status:404\"\x7d]\x7d"

/-- The serialized artifact of tunnel `t1` with the rule for `a.example.com` and the
catch-all. -/
def textA : String :=
  "\x7b\"tunnel\":\"t1\",\"credentials-file\":\"/etc/cloudflared/creds/creds.json\",\"ingress"
    ++ "\":[\x7b\"hostname\":\"a.example.com\",\"service\":\"http://s1:80\"\x7d,\x7b\"service\":\"h"
    ++ "ttp_status:404\"\x7d]\x7d"

/-- The artifact of `textA` with the rule for `a.example.com` twice. -/
def textAA : String :=
  "\x7b\"tunnel\":\"t1\",\"credentials-file\":\"/etc/cloudflared/creds/creds.json\",\"ingress"
    ++ "\":[\x7b\"hostname\":\"a.example.com\",\"service\":\"http://s1:80\"\x7d,\x7b\"hostname\":\""
    ++ "a.example.com\",\"service\":\"http://s1:80\"\x7d,\x7b\"service\":\"http_status:404\"\x7d]"
    ++ "\x7d"

/-- The artifact of `textA` with the rule for `a.example.com` four times. -/
def textAAAA : String :=
  "\x7b\"tunnel\":\"t1\",\"credentials-file\":\"/etc/cloudflared/creds/creds.json\",\"ingress"
    ++ "\":[\x7b\"hostname\":\"a.example.com\",\"service\":\"http://s1:80\"\x7d,\x7b\"hostname\":\""
    ++ "a.example.com\",\"service\":\"http://s1:80\"\x7d,\x7b\"hostname\":\"a.example.com\",\"servi"
    ++ "ce\":\"http://s1:80\"\x7d,\x7b\"hostname\":\"a.example.com\",\"service\":\"http://s1:80\""
    ++ "\x7d,\x7b\"service\":\"http_status:404\"\x7d]\x7d"

/-- A serialized artifact of tunnel `t1` whose rules are out of order and have no
catch-all. -/
def textBA : String :=
  "\x7b\"tunnel\":\"t1\",\"credentials-file\":\"/etc/cloudflared/creds/creds.json\",\"ingress"
    ++ "\":[\x7b\"hostname\":\"b.example.com\",\"service\":\"http://s2:80\"\x7d,\x7b\"hostname\":\""
    ++ "a.example.com\",\"service\":\"http://s1:80\"\x7d]\x7d"

/-- The artifact of `textBA` with its rules in order. -/
def textAB : String :=
  "\x7b\"tunnel\":\"t1\",\"credentials-file\":\"/etc/cloudflared/creds/creds.json\",\"ingress"
    ++ "\":[\x7b\"hostname\":\"a.example.com\",\"service\":\"http://s1:80\"\x7d,\x7b\"hostname\":\""
    ++ "b.example.com\",\"service\":\"http://s2:80\"\x7d]\x7d"

end http_route

/-! # The gateway-class controller

Shallow embedding of `internal/controller/gateway_class/validator.go` and
`internal/controller/gateway_class/controller.go`. The store, the HTTP client, the JSON
decoder and the clock are parameters. -/

namespace controller

/-- The constant `Name`. -/
def Name : String := "adamland.xyz/cloudflare-gateway-controller"

end controller

namespace corev1

/-- The part of a `corev1.Secret` the program uses. `Data` holds byte strings in Go;
the program converts each value it reads to a string. -/
structure Secret where
  Name : String
  Namespace : String
  Labels : List (String × String)
  Data : List (String × String)
  StringData : List (String × String)
  deriving DecidableEq, Repr

/-- A map read `m[key]` on a `map[string]string` or `map[string][]byte`: the empty
string for a missing key. -/
def mapGet (m : List (String × String)) (key : String) : String :=
  match m.lookup key with
  | some v => v
  | none => ""

end corev1

namespace metav1

/-- The struct `metav1.Condition`; the time is a number of seconds. The field `Type` is
`Type_` here, `Type` being a reserved word. -/
structure Condition where
  Type_ : String
  Status : String
  ObservedGeneration : Int
  LastTransitionTime : Nat
  Reason : String
  Message : String
  deriving DecidableEq, Repr

end metav1

namespace gatewayv1

/-- The struct `gatewayv1.ParametersReference`. -/
structure ParametersReference where
  Group : String
  Kind : String
  Name : String
  Namespace : Option String
  deriving DecidableEq, Repr

/-- The part of a `gatewayv1.GatewayClass` the program uses: `Spec.ControllerName`,
`Spec.ParametersRef` (a pointer, `none` when nil) and `Status.Conditions`. -/
structure GatewayClass where
  ControllerName : String
  ParametersRef : Option ParametersReference
  Conditions : List metav1.Condition
  deriving DecidableEq, Repr

end gatewayv1

namespace ctrl

/-- The struct `ctrl.Result`; the delay is a number of seconds. -/
structure Result where
  Requeue : Bool
  RequeueAfter : Nat
  deriving DecidableEq, Repr

end ctrl

namespace client

/-- An error of the store client: `apierrors.IsNotFound` and the message. -/
structure StoreError where
  IsNotFound : Bool
  Message : String
  deriving DecidableEq, Repr

/-- The function `client.IgnoreNotFound`. -/
def IgnoreNotFound (err : StoreError) : Option String :=
  if err.IsNotFound then none else some err.Message

end client

namespace gateway_class

open corev1

/-- One entry of `Errors` in `cloudflareTokenValidationResponse`. -/
structure responseError where
  Code : Int
  Message : String
  deriving DecidableEq, Repr

/-- The struct `cloudflareTokenValidationResponse`, without the untyped members
`Messages` and `Result` and the error chains, which the program does not read. -/
structure cloudflareTokenValidationResponse where
  Success : Bool
  Errors : List responseError
  deriving DecidableEq, Repr

/-- The part of an `http.Response` the program reads. -/
structure Response where
  StatusCode : Nat
  Body : String
  deriving DecidableEq, Repr

/-- The method `validateConfig`, on the secret `v.configSecret`. -/
def validateConfig (configSecret : Secret) : Option String :=
  let cloudflareApiToken := mapGet configSecret.Data "api_token"
  if cloudflareApiToken = "" then some "secret does not contain a CLOUDFLARE_API_TOKEN key"
  else
    let domain := mapGet configSecret.Data "domain"
    if domain = "" then some "secret does not contain a domain key"
    else
      let email := mapGet configSecret.Data "email"
      if email = "" then some "secret does not contain an email key"
      else
        let accountId := mapGet configSecret.Data "account_id"
        if accountId = "" then some "secret does not contain an account_id key"
        else none

/-- The method `validateToken`. `Do` is `http.DefaultClient.Do` on the request to the
token verification endpoint, as a function of the value of the `Authorization` header;
`Decode` is the JSON decoding of the body into a `cloudflareTokenValidationResponse`.
Building the request from the constant method and URL does not fail. The result is
`none` when the call panics, on `p.Errors[0]` with no entry in `Errors`. -/
def validateToken (Do : String → Except String Response)
    (Decode : String → Option cloudflareTokenValidationResponse) (configSecret : Secret) :
    Option (Option String) :=
  match Do ("Bearer " ++ mapGet configSecret.Data "api_token") with
  | .error err => some (some err)
  | .ok resp =>
    if resp.StatusCode = 400 then some (some "invalid token")
    else if resp.StatusCode ≠ 200 then
      match Decode resp.Body with
      | none => some (some "could not parse response from cloudflare")
      | some p =>
        match p.Errors with
        | [] => none
        | first :: _ =>
          some (some ("failed cloudflare token validation: expected 200 OK , got "
            ++ toString resp.StatusCode ++ ": " ++ first.Message))
    else some none

/-- What the class controller calls outside the repository: the store's `Get` of a
secret by namespace and name, the store's `Status().Update`, the HTTP client, the JSON
decoder and `time.Now`. -/
structure Env where
  GetSecret : String → String → Except client.StoreError Secret
  StatusUpdate : gatewayv1.GatewayClass → Option String
  Do : String → Except String Response
  Decode : String → Option cloudflareTokenValidationResponse
  Now : Nat

/-- The method `Reconciler.validate`, on a class object that is not nil (the one
`Reconcile` passes never is). The result is `none` when the call panics: on
`gatewayClass.Spec.ParametersRef.Name` with a nil `ParametersRef`, or in
`validateToken`. -/
def validate (E : Env) (gatewayClass : gatewayv1.GatewayClass) : Option (Option String) :=
  match gatewayClass.ParametersRef with
  | none => none
  | some parametersRef =>
    match E.GetSecret "default" parametersRef.Name with
    | .error err =>
      some (some ("failed to retrieve secret default/" ++ parametersRef.Name ++ ": "
        ++ err.Message))
    | .ok secret =>
      match validateConfig secret with
      | some err => some (some ("failed to create gatewayclass validator: " ++ err))
      | none =>
        match validateToken E.Do E.Decode secret with
        | none => none
        | some (some err) => some (some ("failed to validate token: " ++ err))
        | some none => some none

/-- The condition `reject` writes. -/
def rejectedCondition (now : Nat) (message : String) : metav1.Condition :=
  { Type_ := "Accepted", Status := "False", ObservedGeneration := 0,
    LastTransitionTime := now, Reason := "Invalid", Message := message }

/-- The condition `accept` writes. -/
def acceptedCondition (now : Nat) : metav1.Condition :=
  { Type_ := "Accepted", Status := "True", ObservedGeneration := 0,
    LastTransitionTime := now, Reason := "Accepted", Message := "this is a test acceptance" }

/-- The loop of `reject` and of `accept` over `gatewayClass.Status.Conditions`: the
element at an index whose condition has the type `Accepted` is replaced by `new`. -/
def replaceAccepted (new : metav1.Condition) : List metav1.Condition → List metav1.Condition
  | [] => []
  | condition :: rest =>
    if condition.Type_ ≠ "Accepted" then condition :: replaceAccepted new rest
    else new :: replaceAccepted new rest

/-- The method `reject`: the class object after the loop, which is the argument of
`Status().Update`, and the error returned. -/
def reject (E : Env) (gatewayClass : gatewayv1.GatewayClass) (message : String) :
    gatewayv1.GatewayClass × Option String :=
  let gatewayClass1 :=
    { gatewayClass with
      Conditions := replaceAccepted (rejectedCondition E.Now message) gatewayClass.Conditions }
  (gatewayClass1, E.StatusUpdate gatewayClass1)

/-- The method `accept`. -/
def accept (E : Env) (gatewayClass : gatewayv1.GatewayClass) :
    gatewayv1.GatewayClass × Option String :=
  let gatewayClass1 :=
    { gatewayClass with
      Conditions := replaceAccepted (acceptedCondition E.Now) gatewayClass.Conditions }
  (gatewayClass1, E.StatusUpdate gatewayClass1)

/-- What a call of `Reconcile` leaves behind: the result and error it returns, the
class object it worked on (`none` when it fetched none) and the calls of
`Status().Update` it made. -/
structure Outcome where
  result : ctrl.Result
  err : Option String
  gatewayClass : Option gatewayv1.GatewayClass
  statusUpdates : List gatewayv1.GatewayClass
  deriving DecidableEq, Repr

/-- The value `defaultResult` of `Reconcile`: requeue after 60 seconds. -/
def defaultResult : ctrl.Result := { Requeue := true, RequeueAfter := 60 }

/-- The method `Reconcile` of the class controller; `got` is the answer of the store
to the `Get` of the class object of the request. The result is `none` when the call
panics. Every return after the ownership test gives `defaultResult` and a nil error. -/
def Reconcile (E : Env) (got : Except client.StoreError gatewayv1.GatewayClass) :
    Option Outcome :=
  match got with
  | .error err =>
    some { result := { Requeue := false, RequeueAfter := 0 }, err := client.IgnoreNotFound err,
           gatewayClass := none, statusUpdates := [] }
  | .ok gatewayClass =>
    if gatewayClass.ControllerName ≠ controller.Name then
      some { result := { Requeue := false, RequeueAfter := 0 }, err := none,
             gatewayClass := some gatewayClass, statusUpdates := [] }
    else
      match validate E gatewayClass with
      | none => none
      | some (some message) =>
        let rejected := reject E gatewayClass message
        some { result := defaultResult, err := none, gatewayClass := some rejected.1,
               statusUpdates := [rejected.1] }
      | some none =>
        let accepted := accept E gatewayClass
        some { result := defaultResult, err := none, gatewayClass := some accepted.1,
               statusUpdates := [accepted.1] }

end gateway_class

namespace gateway_class

open http_route

/-! ### A concrete decoder of the provider's answer, for the runs on concrete inputs

It reads the texts of the form
`{"success":false,"errors":[{"code":1000,"message":"..."}],"messages":[],"result":null}`,
on which it agrees with the JSON decoder, and rejects every other text. -/

/-- Reads the decimal digits at the front of `s` into the number `n`. -/
def readDigits : List Char → Nat → Nat × List Char
  | [], n => (n, [])
  | c :: s, n => if c.isDigit then readDigits s (10 * n + (c.toNat - 48)) else (n, c :: s)

/-- Reads one entry of `errors`. -/
def readError (s : List Char) : Option (responseError × List Char) :=
  match expect "\x7b\"code\":".data s with
  | none => none
  | some s1 =>
    match s1 with
    | [] => none
    | c :: _ =>
      if c.isDigit then
        match readDigits s1 0 with
        | (code, s2) =>
          match expect ",".data s2 with
          | none => none
          | some s3 =>
            match readMember "message" s3 with
            | none => none
            | some (message, s4) =>
              match expect "\x7d".data s4 with
              | none => none
              | some s5 => some ({ Code := code, Message := message }, s5)
      else none

/-- Reads the entries of `errors`, after the opening bracket, up to and with the
closing bracket; `fuel` bounds the number of entries. -/
def readErrors : Nat → List Char → Option (List responseError × List Char)
  | 0, _ => none
  | fuel + 1, s =>
    match expect "]".data s with
    | some s1 => some ([], s1)
    | none =>
      match readError s with
      | none => none
      | some (e, s1) =>
        match expect "]".data s1 with
        | some s2 => some ([e], s2)
        | none =>
          match expect ",".data s1 with
          | none => none
          | some s2 =>
            match readErrors fuel s2 with
            | none => none
            | some (es, s3) => if es = [] then none else some (e :: es, s3)

/-- Reads a whole answer with `success` false. -/
def readResponse (s : List Char) : Option cloudflareTokenValidationResponse :=
  match expect "\x7b\"success\":false,\"errors\":[".data s with
  | none => none
  | some s1 =>
    match readErrors s1.length s1 with
    | none => none
    | some (es, s2) =>
      if s2 = ",\"messages\":[],\"result\":null\x7d".data then
        some { Success := false, Errors := es }
      else none

/-- The concrete decoder. -/
def plainDecode (body : String) : Option cloudflareTokenValidationResponse :=
  readResponse body.data

/-- The answer of the provider to an invalid token, as documented by it. -/
def bodyInvalidToken : String :=
  "\x7b\"success\":false,\"errors\":[\x7b\"code\":1000,\"message\":\"Invalid API Token\"\x7d],"
    ++ "\"messages\":[],\"result\":null\x7d"

/-- A credential secret with the four fields. -/
def secretComplete : corev1.Secret :=
  { Name := "cloudflare", Namespace := "default", Labels := [], StringData := [],
    Data := [("api_token", "tok"), ("domain", "example.com"), ("email", "ops@example.com"),
      ("account_id", "acc1")] }

/-- A credential secret without the field `domain`. -/
def secretNoDomain : corev1.Secret :=
  { Name := "cloudflare", Namespace := "default", Labels := [], StringData := [],
    Data := [("api_token", "tok"), ("email", "ops@example.com"), ("account_id", "acc1")] }

end gateway_class

namespace gateway_class

/-- A field of a credential that is empty or missing. -/
def emptyOrMissing (data : List (String × String)) (key : String) : Prop :=
  data.lookup key = none ∨ data.lookup key = some ""

instance (data : List (String × String)) (key : String) :
    Decidable (emptyOrMissing data key) := by
  unfold emptyOrMissing
  infer_instance

/-- The conditions `after` are the conditions `before` with an `Accepted`-type
condition rewritten to `new`: `new` is among them, every condition of the type
`Accepted` is `new`, and the conditions of the other types are the same, in the same
order. -/
def ConditionsRewritten (new : metav1.Condition) (before after : List metav1.Condition) :
    Prop :=
  new ∈ after ∧ (∀ c ∈ after, c.Type_ = "Accepted" → c = new) ∧
  after.filter (fun c => c.Type_ ≠ "Accepted") = before.filter (fun c => c.Type_ ≠ "Accepted")

/-- A class object of this controller with the condition the API server gives a new
class. -/
def classPending : gatewayv1.GatewayClass :=
  { ControllerName := controller.Name,
    ParametersRef := some { Group := "", Kind := "Secret", Name := "cloudflare", Namespace := none },
    Conditions :=
      [{ Type_ := "Accepted", Status := "Unknown", ObservedGeneration := 0,
         LastTransitionTime := 0, Reason := "Pending", Message := "Waiting for controller" }] }

/-- A class object of this controller without conditions. -/
def classNoConditions : gatewayv1.GatewayClass :=
  { ControllerName := controller.Name,
    ParametersRef := some { Group := "", Kind := "Secret", Name := "cloudflare", Namespace := none },
    Conditions := [] }

/-- An environment in which the store holds the secret `secret`, the status update
succeeds and the provider answers `resp`. -/
def envOf (secret : corev1.Secret) (resp : Response) : Env :=
  { GetSecret := fun _ _ => .ok secret
    StatusUpdate := fun _ => none
    Do := fun _ => .ok resp
    Decode := plainDecode
    Now := 1700000000 }

end gateway_class

namespace k8s

/-! # The secret generator

Shallow embedding of `GenerateRandomString` of `internal/clients/k8s/gateway_secret.go`.
The random source is a parameter: `randInt i max` is the answer of the `i`-th call
`rand.Int(rand.Reader, big.NewInt(max))` of the run. -/

/-- The constant `letters` of `GenerateRandomString`. -/
def letters : String := "0123456789ABCDEFGHIJKLMNOPQRSTUVWXYZabcdefghijklmnopqrstuvwxyz-"

/-- The loop of `GenerateRandomString`, from the index `i` on, with `remaining`
iterations to go; `ret` holds the bytes written so far. `letters[num]` is a byte of
`letters`, all of whose characters take one byte; the index expression panics (`none`)
when `num` is not below the length. -/
def generateLoop (randInt : Nat → Nat → Except String Nat) :
    Nat → Nat → List Char → Option (Except String String)
  | _, 0, ret => some (.ok (String.mk ret))
  | i, remaining + 1, ret =>
    match randInt i letters.utf8ByteSize with
    | .error err => some (.error err)
    | .ok num =>
      match letters.data[num]? with
      | none => none
      | some c => generateLoop randInt (i + 1) remaining (ret ++ [c])

/-- The function `GenerateRandomString`; `make([]byte, n)` panics for a negative `n`. -/
def GenerateRandomString (randInt : Nat → Nat → Except String Nat) (n : Int) :
    Option (Except String String) :=
  if n < 0 then none else generateLoop randInt 0 n.toNat []

/-- A random source for the runs on concrete inputs: the draws 5, 25, 45, 2, ... -/
def drawsExample : Nat → Nat → Except String Nat := fun i _ => .ok ((20 * i + 5) % 63)

end k8s

namespace gatewayv1

/-- The part of a `gatewayv1.HTTPBackendRef` the program reads; `Namespace` and `Port`
are pointers, `none` when nil; `PortNumber` is an `int32`. -/
structure BackendRef where
  Name : String
  Namespace : Option String
  Port : Option Int
  deriving DecidableEq, Repr

/-- The part of a `gatewayv1.HTTPRouteRule` the program reads. -/
structure HTTPRouteRule where
  BackendRefs : List BackendRef
  deriving DecidableEq, Repr

/-- The part of a `gatewayv1.HTTPRoute` that `buildRoutingFragment` reads:
`Spec.Hostnames` and `Spec.Rules`. -/
structure HTTPRoute where
  Hostnames : List String
  Rules : List HTTPRouteRule
  deriving DecidableEq, Repr

end gatewayv1

namespace http_route

open cf

/-- Go's conversion `string(i)` of an integer: the UTF-8 encoding of the code point
`i`, and of U+FFFD when `i` is not a valid code point. -/
def runeString (i : Int) : String :=
  if 0 ≤ i ∧ i.toNat.isValidChar then String.singleton (Char.ofNat i.toNat) else "\uFFFD"

/-- The `fmt.Sprintf` expression of `buildRoutingFragment`, the target of a rule. It
panics (`none`) when the route has no rule, its first rule no backend, or the first
backend a nil `Namespace` or a nil `Port`. -/
def backendService (route : gatewayv1.HTTPRoute) : Option String :=
  match route.Rules with
  | [] => none
  | rule :: _ =>
    match rule.BackendRefs with
    | [] => none
    | backendRef :: _ =>
      match backendRef.Namespace with
      | none => none
      | some ns =>
        match backendRef.Port with
        | none => none
        | some port =>
          some ("http://" ++ backendRef.Name ++ "." ++ ns ++ ".svc.cluster.local:"
            ++ runeString port)

/-- The loop of `buildRoutingFragment` over `route.Spec.Hostnames`: the elements it
writes, at the indices of the hostnames. -/
def fillFragment (route : gatewayv1.HTTPRoute) : List String → Option (List IngressConfig)
  | [] => some []
  | hostname :: rest =>
    match backendService route with
    | none => none
    | some service =>
      match fillFragment route rest with
      | none => none
      | some rules => some ({ Hostname := hostname, Service := service } :: rules)

/-- The method `buildRoutingFragment`. The slice is made with
`len(route.Spec.Hostnames)+1` elements and the loop writes the first
`len(route.Spec.Hostnames)` of them: the last one keeps the zero value. -/
def buildRoutingFragment (route : gatewayv1.HTTPRoute) : Option (List IngressConfig) :=
  match fillFragment route route.Hostnames with
  | none => none
  | some rules => some (rules ++ [{ Hostname := "", Service := "" }])

/-- A route with one hostname and a backend with namespace and port. -/
def routeOneHostname : gatewayv1.HTTPRoute :=
  { Hostnames := ["a.example.com"],
    Rules := [{ BackendRefs := [{ Name := "web", Namespace := some "default", Port := some 8080 }] }] }

/-- A route with one hostname and a backend without namespace, the usual form of a
backend in the namespace of the route. -/
def routeNoNamespace : gatewayv1.HTTPRoute :=
  { Hostnames := ["a.example.com"],
    Rules := [{ BackendRefs := [{ Name := "web", Namespace := none, Port := some 8080 }] }] }

end http_route

/-! # The gateway controller

Shallow embedding of `internal/clients/cf/api.go`, of the builders of
`internal/clients/k8s` and of `internal/controller/gateway/controller.go`. The store
and the provider are outside the repository: their calls are parameters, functions of
a state of the world `ω` that a writing call may change. -/

namespace cloudflare

/-- The part of a `cloudflare.Tunnel` the program reads. -/
structure Tunnel where
  ID : String
  Name : String
  deriving DecidableEq, Repr

/-- The struct `cloudflare.TunnelCreateParams`. -/
structure TunnelCreateParams where
  Name : String
  Secret : String
  ConfigSrc : String
  deriving DecidableEq, Repr

/-- The fields of `cloudflare.TunnelListParams` the program sets; `IsDeleted` is a
pointer. -/
structure TunnelListParams where
  Name : String
  IsDeleted : Option Bool
  deriving DecidableEq, Repr

end cloudflare

namespace corev1

/-- The part of a `corev1.ConfigMap` that `BuildTunnelConfigMap` sets. -/
structure ConfigMap where
  Name : String
  Namespace : String
  Labels : List (String × String)
  Data : List (String × String)
  deriving DecidableEq, Repr

end corev1

namespace appsv1

/-- The part of the `appsv1.Deployment` of `BuildTunnelDeployment` that depends on its
arguments; the rest of the object is constant, and none of it depends on the tunnel
id. -/
structure Deployment where
  Name : String
  Namespace : String
  Labels : List (String × String)
  deriving DecidableEq, Repr

end appsv1

namespace gatewayv1

/-- The part of a `gatewayv1.Gateway` the program reads: `ObjectMeta.Name`,
`ObjectMeta.Namespace` and `Spec.GatewayClassName`. -/
structure Gateway where
  Name : String
  Namespace : String
  GatewayClassName : String
  deriving DecidableEq, Repr

end gatewayv1

namespace k8s

/-- The struct `TunnelSecretData`. -/
structure TunnelSecretData where
  Secret : String
  TunnelID : String
  AccountID : String
  deriving DecidableEq, Repr

/-- The function `NewTunnelSecretData`; the error it returns is always nil. -/
def NewTunnelSecretData (tunnelID accountID tunnelSecret : String) :
    Except String TunnelSecretData :=
  .ok { Secret := tunnelSecret, TunnelID := tunnelID, AccountID := accountID }

/-- The function `secretName`. -/
def secretName (deploymentName : String) : String := deploymentName ++ "-secret"

/-- The function `ConfigMapName`. -/
def ConfigMapName (deploymentName : String) : String := deploymentName ++ "-config"

/-- The function `BuildTunnelSecret`; `Marshal` is the `json.Marshal` of `ToJSON`. -/
def BuildTunnelSecret (Marshal : TunnelSecretData → Except String String)
    (deploymentName ns : String) (data : TunnelSecretData) : Except String corev1.Secret :=
  match Marshal data with
  | .error err => .error err
  | .ok jsonData =>
    .ok { Name := secretName deploymentName, Namespace := ns,
          Labels := [("app.kubernetes.io/deploymentName", deploymentName)],
          Data := [], StringData := [("creds.json", jsonData)] }

/-- The function `BuildTunnelConfigMap`; the error it returns is always nil. -/
def BuildTunnelConfigMap (deploymentName ns configFile : String) :
    Except String corev1.ConfigMap :=
  .ok { Name := ConfigMapName deploymentName, Namespace := ns,
        Labels := [("app.kubernetes.io/deploymentName", deploymentName)],
        Data := [(ConfigYamlFileName, configFile)] }

/-- The function `BuildTunnelDeployment`. -/
def BuildTunnelDeployment (deploymentName ns _tunnelId : String) : appsv1.Deployment :=
  { Name := deploymentName, Namespace := ns,
    Labels := [("app.kubernetes.io/deploymentName", deploymentName)] }

/-- Modelled from the spec: the struct `k8s.GatewayClassConfig`, whose declaration is
not among the sources; the specification lists the credential as token, domain, email
and account id, and these are the fields `getConfigFromGatewayClass` sets. -/
structure GatewayClassConfig where
  CloudflareApiToken : String
  Domain : String
  EmailAddress : String
  CloudflareAccountId : String
  deriving DecidableEq, Repr

end k8s

namespace gateway

/-- The calls the gateway controller makes outside the repository, over the state of
the world `ω`. A `Get` of the store reads the state; a `Create` or an `Update` returns
its error and the state after it. `GetGatewayClassIntoNil` is the `Get` of `isMine`,
whose target is a nil pointer: `none` when the call panics, otherwise the error it
returns. `NewWithAPIToken` returns the error of the constructor of the provider's
client. `MarshalConfig` and `MarshalSecretData` are `json.Marshal` on an artifact and on
a credential record. -/
structure Clients (ω : Type) where
  GetGateway : ω → String → String → Except client.StoreError gatewayv1.Gateway
  GetGatewayClassIntoNil : ω → String → Option (Option client.StoreError)
  GetGatewayClass : ω → String → Except client.StoreError gatewayv1.GatewayClass
  GetSecret : ω → String → String → Except client.StoreError corev1.Secret
  CreateSecret : ω → corev1.Secret → Option String × ω
  GetConfigMap : ω → String → String → Except client.StoreError corev1.ConfigMap
  CreateConfigMap : ω → corev1.ConfigMap → Option String × ω
  GetDeployment : ω → String → String → Except client.StoreError appsv1.Deployment
  CreateDeployment : ω → appsv1.Deployment → Option String × ω
  UpdateDeployment : ω → appsv1.Deployment → Option String × ω
  NewWithAPIToken : String → Option String
  ListTunnels : ω → cloudflare.TunnelListParams → Except String (List cloudflare.Tunnel)
  CreateTunnel : ω → cloudflare.TunnelCreateParams → Except String cloudflare.Tunnel × ω
  MarshalConfig : cf.TunnelConfigFile → Except String String
  MarshalSecretData : k8s.TunnelSecretData → Except String String

end gateway

namespace cf

/-- The constant `ConfigSourceLocal`. -/
def ConfigSourceLocal : String := "local"

/-- The function `newTunnelCreateParams`. -/
def newTunnelCreateParams (name secret : String) : cloudflare.TunnelCreateParams :=
  { Name := name, Secret := secret, ConfigSrc := ConfigSourceLocal }

/-- The method `Api.CreateTunnel`: the tunnel or the error, and the world after the
call of the provider. -/
def CreateTunnel {ω : Type} (C : gateway.Clients ω) (w : ω) (name secret : String) :
    Except String cloudflare.Tunnel × ω :=
  match C.CreateTunnel w (newTunnelCreateParams name secret) with
  | (.error err, w1) => (.error ("failed to create tunnel: " ++ err), w1)
  | (.ok tunnel, w1) => (.ok tunnel, w1)

/-- The method `Api.TunnelExists`: the error, or `exists` and `tunnel`. -/
def TunnelExists {ω : Type} (C : gateway.Clients ω) (w : ω) (tunnelName : String) :
    Except String (Bool × cloudflare.Tunnel) :=
  match C.ListTunnels w { Name := tunnelName, IsDeleted := some false } with
  | .error err => .error ("failed to get existing tunnel: " ++ err)
  | .ok tunnels =>
    if tunnels.length > 1 then
      .error ("expected 1 tunnel, got " ++ toString tunnels.length)
    else
      match tunnels with
      | [] => .ok (false, { ID := "", Name := "" })
      | tunnel :: _ => .ok (true, tunnel)

end cf

namespace gateway

/-- The struct `ReconciliationLoop`, without the logger and the provider's client. -/
structure ReconciliationLoop where
  GatewayName : String
  GatewayNamespace : String
  tunnelID : String
  tunnelSecret : String
  accountID : String
  deriving DecidableEq, Repr

/-- The method `isMine`. The variable `gatewayClass` is declared as a nil pointer and
handed to `Get` by value: it is nil after the call whatever the call did. -/
def isMine {ω : Type} (C : Clients ω) (w : ω) (gateway : Option gatewayv1.Gateway) :
    Option (Bool × Option String) :=
  match gateway with
  | none => some (false, some "returned nil gateway")
  | some gateway =>
    let gatewayClass : Option gatewayv1.GatewayClass := none
    match C.GetGatewayClassIntoNil w gateway.GatewayClassName with
    | none => none
    | some (some err) => some (false, some ("failed to get gateway: " ++ err.Message))
    | some none =>
      match gatewayClass with
      | none => some (false, some "returned nil gatewayClass")
      | some gatewayClass =>
        if gatewayClass.ControllerName = "" then
          some (false, some "returned gatewayClass has no controllerName")
        else some (decide (gatewayClass.ControllerName = controller.Name), none)

/-- The method `getConfigFromGatewayClass`, on a gateway that is not nil. It panics
(`none`) on a class whose `ParametersRef` is nil. -/
def getConfigFromGatewayClass {ω : Type} (C : Clients ω) (w : ω)
    (gateway : gatewayv1.Gateway) : Option (Except String k8s.GatewayClassConfig) :=
  if gateway.GatewayClassName = "" then some (.error "gateway class name is empty")
  else
    match C.GetGatewayClass w gateway.GatewayClassName with
    | .error err => some (.error ("failed to get gateway class: " ++ err.Message))
    | .ok gatewayClass =>
      match gatewayClass.ParametersRef with
      | none => none
      | some parametersRef =>
        let ns :=
          match parametersRef.Namespace with
          | none => "default"
          | some ns => ns
        match C.GetSecret w parametersRef.Name ns with
        | .error err => some (.error ("failed to get secret: " ++ err.Message))
        | .ok secret =>
          let cloudflareApiToken := corev1.mapGet secret.Data "api_token"
          if cloudflareApiToken = "" then some (.error "cloudflare api token is empty")
          else
            let domain := corev1.mapGet secret.Data "domain"
            if domain = "" then some (.error "domain is empty")
            else
              let emailAddress := corev1.mapGet secret.Data "email"
              if emailAddress = "" then some (.error "email is empty")
              else
                let cloudflareAccountId := corev1.mapGet secret.Data "account_id"
                if cloudflareAccountId = "" then some (.error "cloudflare account id is empty")
                else
                  some (.ok { CloudflareApiToken := cloudflareApiToken, Domain := domain,
                              EmailAddress := emailAddress,
                              CloudflareAccountId := cloudflareAccountId })

/-- What a step of the reconcile leaves behind: the error it returns, the world after
it, and the objects it asked the store or the provider to create or update. -/
structure Step (ω α : Type) where
  err : Option String
  world : ω
  calls : List α

/-- The method `ensureTunnelDeployment`; the calls are the deployments created or
updated. -/
def ensureTunnelDeployment {ω : Type} (C : Clients ω) (Loop : ReconciliationLoop) (w : ω) :
    Step ω appsv1.Deployment :=
  let expectedDeployment :=
    k8s.BuildTunnelDeployment Loop.GatewayName Loop.GatewayNamespace Loop.tunnelID
  match C.GetDeployment w expectedDeployment.Name Loop.GatewayNamespace with
  | .error err =>
    if !err.IsNotFound then
      { err := some ("failed to get existing deployment: " ++ err.Message), world := w,
        calls := [] }
    else
      match C.CreateDeployment w expectedDeployment with
      | (some cerr, w1) =>
        { err := some ("failed to create expectedDeployment: " ++ cerr), world := w1,
          calls := [expectedDeployment] }
      | (none, w1) => { err := none, world := w1, calls := [expectedDeployment] }
  | .ok _ =>
    match C.UpdateDeployment w expectedDeployment with
    | (some uerr, w1) =>
      { err := some ("failed to update expectedDeployment: " ++ uerr), world := w1,
        calls := [expectedDeployment] }
    | (none, w1) => { err := none, world := w1, calls := [expectedDeployment] }

/-- What `ensureCloudflareTunnel` leaves behind: the tunnel or the error it returns,
the world after it, and the calls of the provider's create it made. -/
structure TunnelStep (ω : Type) where
  tunnel : Except String cloudflare.Tunnel
  world : ω
  createCalls : List cloudflare.TunnelCreateParams

/-- The method `ensureCloudflareTunnel`. -/
def ensureCloudflareTunnel {ω : Type} (C : Clients ω) (Loop : ReconciliationLoop) (w : ω) :
    TunnelStep ω :=
  match cf.TunnelExists C w Loop.GatewayName with
  | .error err =>
    { tunnel := .error ("failed to check if existingTunnel exists: " ++ err), world := w,
      createCalls := [] }
  | .ok (found, existingTunnel) =>
    if found then { tunnel := .ok existingTunnel, world := w, createCalls := [] }
    else
      match cf.CreateTunnel C w Loop.GatewayName Loop.tunnelSecret with
      | (.error err, w1) =>
        { tunnel := .error ("failed to create cloudflare tunnel: " ++ err), world := w1,
          createCalls := [cf.newTunnelCreateParams Loop.GatewayName Loop.tunnelSecret] }
      | (.ok newTunnel, w1) =>
        { tunnel := .ok newTunnel, world := w1,
          createCalls := [cf.newTunnelCreateParams Loop.GatewayName Loop.tunnelSecret] }

/-- The method `ensureTunnelSecret`; the calls are the secrets it asked the store to
create. -/
def ensureTunnelSecret {ω : Type} (C : Clients ω) (Loop : ReconciliationLoop) (w : ω) :
    Step ω corev1.Secret :=
  match k8s.NewTunnelSecretData Loop.tunnelID Loop.accountID Loop.tunnelSecret with
  | .error err =>
    { err := some ("failed to create tunnel secret data: " ++ err), world := w, calls := [] }
  | .ok secretData =>
    match k8s.BuildTunnelSecret C.MarshalSecretData Loop.GatewayName Loop.GatewayNamespace
        secretData with
    | .error err =>
      { err := some ("failed to serialize tunnel secret: " ++ err), world := w, calls := [] }
    | .ok secret =>
      match C.GetSecret w secret.Name Loop.GatewayNamespace with
      | .error err =>
        if !err.IsNotFound then
          { err := some ("failed to get existing secret: " ++ err.Message), world := w,
            calls := [] }
        else
          match C.CreateSecret w secret with
          | (some cerr, w1) =>
            { err := some ("failed to create secret: " ++ cerr), world := w1,
              calls := [secret] }
          | (none, w1) => { err := none, world := w1, calls := [secret] }
      | .ok _ => { err := none, world := w, calls := [] }

/-- The method `createInitialConfigMapIfNotExists`; the calls are the config maps it
asked the store to create. -/
def createInitialConfigMapIfNotExists {ω : Type} (C : Clients ω) (Loop : ReconciliationLoop)
    (w : ω) : Step ω corev1.ConfigMap :=
  match C.GetConfigMap w (k8s.ConfigMapName Loop.GatewayName) Loop.GatewayNamespace with
  | .ok _ => { err := none, world := w, calls := [] }
  | .error err =>
    if !err.IsNotFound then
      { err := some ("failed to get existing configmap: " ++ err.Message), world := w,
        calls := [] }
    else
      match cf.NewTunnelConfigFile Loop.tunnelID [] with
      | .error nerr =>
        { err := some ("failed to create tunnel config file: " ++ nerr), world := w,
          calls := [] }
      | .ok configFile =>
        match C.MarshalConfig configFile with
        | .error merr =>
          { err := some ("failed to serialize config: " ++ merr), world := w, calls := [] }
        | .ok configFileJson =>
          match k8s.BuildTunnelConfigMap Loop.GatewayName Loop.GatewayNamespace
              configFileJson with
          | .error berr =>
            { err := some ("failed to generate configmap definition: " ++ berr), world := w,
              calls := [] }
          | .ok newConfigMap =>
            match C.CreateConfigMap w newConfigMap with
            | (some cerr, w1) =>
              { err := some ("failed to create configmap: " ++ cerr), world := w1,
                calls := [newConfigMap] }
            | (none, w1) => { err := none, world := w1, calls := [newConfigMap] }

/-- What a call of `Reconcile` leaves behind: the result and the error it returns and
the world after it. -/
structure Outcome (ω : Type) where
  result : ctrl.Result
  err : Option String
  world : ω

/-- The value `defaultResult` of `Reconcile`: requeue after 60 seconds. -/
def defaultResult : ctrl.Result := { Requeue := true, RequeueAfter := 60 }

/-- The part of `Reconcile` after the ownership test, for a gateway of this
controller; `randInt` is the random source of this call. Each of its returns gives
`defaultResult` and a nil error. It is `none` when the call panics. -/
def reconcileOwned {ω : Type} (C : Clients ω) (randInt : Nat → Nat → Except String Nat)
    (w : ω) (gateway : gatewayv1.Gateway) : Option (Outcome ω) :=
  let Loop0 : ReconciliationLoop :=
    { GatewayName := gateway.Name, GatewayNamespace := gateway.Namespace, tunnelID := "",
      tunnelSecret := "", accountID := "" }
  match getConfigFromGatewayClass C w gateway with
  | none => none
  | some (.error _) => some { result := defaultResult, err := none, world := w }
  | some (.ok gatewayClassConfig) =>
    match k8s.GenerateRandomString randInt 32 with
    | none => none
    | some (.error _) => some { result := defaultResult, err := none, world := w }
    | some (.ok tunnelSecret) =>
      let Loop1 := { Loop0 with tunnelSecret := tunnelSecret }
      match C.NewWithAPIToken gatewayClassConfig.CloudflareApiToken with
      | some _ => some { result := defaultResult, err := none, world := w }
      | none =>
        let ensured := ensureCloudflareTunnel C Loop1 w
        match ensured.tunnel with
        | .error _ => some { result := defaultResult, err := none, world := ensured.world }
        | .ok tunnel =>
          let Loop2 := { Loop1 with tunnelID := tunnel.ID }
          let configMapStep := createInitialConfigMapIfNotExists C Loop2 ensured.world
          match configMapStep.err with
          | some _ =>
            some { result := defaultResult, err := none, world := configMapStep.world }
          | none =>
            let secretStep := ensureTunnelSecret C Loop2 configMapStep.world
            match secretStep.err with
            | some _ =>
              some { result := defaultResult, err := none, world := secretStep.world }
            | none =>
              let deploymentStep := ensureTunnelDeployment C Loop2 secretStep.world
              some { result := defaultResult, err := none, world := deploymentStep.world }

/-- The method `Reconcile` of the gateway controller, for the request with the
namespace `ns` and the name `name`. -/
def Reconcile {ω : Type} (C : Clients ω) (randInt : Nat → Nat → Except String Nat) (w : ω)
    (ns name : String) : Option (Outcome ω) :=
  match C.GetGateway w ns name with
  | .error err =>
    some { result := { Requeue := false, RequeueAfter := 0 },
           err := client.IgnoreNotFound err, world := w }
  | .ok gateway =>
    match isMine C w (some gateway) with
    | none => none
    | some (_, some err) => some { result := defaultResult, err := some err, world := w }
    | some (false, none) =>
      some { result := { Requeue := false, RequeueAfter := 0 }, err := none, world := w }
    | some (true, none) => reconcileOwned C randInt w gateway

end gateway

namespace k8s

/-- What `json.Marshal` writes for a `TunnelSecretData` whose strings need no escaping:
the fields in the order of the declaration, under their JSON names. -/
def encodeSecretData (t : TunnelSecretData) : String :=
  "\x7b\"TunnelSecret\":" ++ http_route.quote t.Secret
    ++ ",\"TunnelID\":" ++ http_route.quote t.TunnelID
    ++ ",\"AccountTag\":" ++ http_route.quote t.AccountID ++ "\x7d"

/-- A second random source for the runs on concrete inputs: the draws 1, 8, 15, ... -/
def drawsExample2 : Nat → Nat → Except String Nat := fun i _ => .ok ((7 * i + 1) % 63)

end k8s

namespace gateway

/-! ### A concrete world for the runs on concrete inputs

The store holds the objects it was asked to create; the provider holds the tunnels
that are not deleted, each with the secret it was created with, lists the tunnels of a
name, and on a create adds one tunnel with the name and the secret given. -/

/-- A tunnel as the provider holds it. -/
structure RemoteTunnel where
  ID : String
  Name : String
  Secret : String
  deriving DecidableEq, Repr

/-- The state of the world. -/
structure World where
  gateways : List gatewayv1.Gateway
  classes : List (String × gatewayv1.GatewayClass)
  secrets : List corev1.Secret
  configMaps : List corev1.ConfigMap
  deployments : List appsv1.Deployment
  tunnels : List RemoteTunnel
  deriving DecidableEq, Repr

/-- The calls of the store that fail in a run, with the error they return. -/
structure Faults where
  createConfigMap : Option String
  createSecret : Option String
  deriving DecidableEq, Repr

/-- A run in which no call fails. -/
def noFaults : Faults := { createConfigMap := none, createSecret := none }

/-- The not-found error of the store. -/
def notFound (kind name : String) : client.StoreError :=
  { IsNotFound := true, Message := kind ++ " \"" ++ name ++ "\" not found" }

/-- The tunnels of the name `name`, as the provider lists them. -/
def tunnelsNamed (w : World) (name : String) : List cloudflare.Tunnel :=
  (w.tunnels.filter (fun t => t.Name = name)).map (fun t => { ID := t.ID, Name := t.Name })

/-- The clients of the concrete world; `newID` is the id the provider gives the next
tunnel. The `Get` of `isMine`, whose target is a nil pointer, is refused by the client
with the error `expected pointer, but got nil`, whether the class is in the store or
not. The store keeps the `StringData` of a secret as `Data`. -/
def worldClients (newID : World → String) (faults : Faults) : Clients World where
  GetGateway w ns name :=
    match w.gateways.find? (fun g => g.Namespace = ns ∧ g.Name = name) with
    | some g => .ok g
    | none => .error (notFound "gateways.gateway.networking.k8s.io" name)
  GetGatewayClassIntoNil _ _ :=
    some (some { IsNotFound := false, Message := "expected pointer, but got nil" })
  GetGatewayClass w name :=
    match w.classes.lookup name with
    | some c => .ok c
    | none => .error (notFound "gatewayclasses.gateway.networking.k8s.io" name)
  GetSecret w name ns :=
    match w.secrets.find? (fun s => s.Namespace = ns ∧ s.Name = name) with
    | some s => .ok s
    | none => .error (notFound "secrets" name)
  CreateSecret w s :=
    match faults.createSecret with
    | some err => (some err, w)
    | none =>
      (none, { w with secrets := w.secrets
        ++ [{ s with Data := s.StringData ++ s.Data, StringData := [] }] })
  GetConfigMap w name ns :=
    match w.configMaps.find? (fun c => c.Namespace = ns ∧ c.Name = name) with
    | some c => .ok c
    | none => .error (notFound "configmaps" name)
  CreateConfigMap w c :=
    match faults.createConfigMap with
    | some err => (some err, w)
    | none => (none, { w with configMaps := w.configMaps ++ [c] })
  GetDeployment w name ns :=
    match w.deployments.find? (fun d => d.Namespace = ns ∧ d.Name = name) with
    | some d => .ok d
    | none => .error (notFound "deployments.apps" name)
  CreateDeployment w d := (none, { w with deployments := w.deployments ++ [d] })
  UpdateDeployment w d :=
    (none, { w with deployments :=
      w.deployments.map (fun e => if e.Namespace = d.Namespace ∧ e.Name = d.Name then d else e) })
  NewWithAPIToken token :=
    if token = "" then some "invalid credentials: API Token must not be empty" else none
  ListTunnels w p := .ok (tunnelsNamed w p.Name)
  CreateTunnel w p :=
    (.ok { ID := newID w, Name := p.Name },
      { w with tunnels := w.tunnels ++ [{ ID := newID w, Name := p.Name, Secret := p.Secret }] })
  MarshalConfig := http_route.plainJson.Marshal
  MarshalSecretData t := .ok (k8s.encodeSecretData t)

/-- The id of the next tunnel in the runs on concrete inputs. -/
def nextTunnelID (w : World) : String := "tunnel-" ++ toString w.tunnels.length

/-- The gateway of the runs on concrete inputs. -/
def gatewayOne : gatewayv1.Gateway :=
  { Name := "gw1", Namespace := "default", GatewayClassName := "cloudflare" }

/-- A world with the gateway, its class and the credential of the class, and nothing
provisioned. -/
def worldFresh : World :=
  { gateways := [gatewayOne]
    classes := [("cloudflare", gateway_class.classPending)]
    secrets := [gateway_class.secretComplete]
    configMaps := [], deployments := [], tunnels := [] }

/-- A world with the gateway and without its class. -/
def worldNoClass : World :=
  { gateways := [gatewayOne], classes := [], secrets := [], configMaps := [],
    deployments := [], tunnels := [] }

end gateway

namespace gateway

/-- The secret `GenerateRandomString(32)` returns on the draws `drawsExample`. -/
def secretFirst : String := "5Pj2Mg-JdxGauDXrAUo7Rl4Oi1LfzIcw"

/-- The secret `GenerateRandomString(32)` returns on the draws `drawsExample2`. -/
def secretSecond : String := "18FMTahov18FMTahov18FMTahov18FMT"

/-- A run in which the store fails to create the config map. -/
def configMapFault : Faults :=
  { createConfigMap := some "etcdserver: request timed out", createSecret := none }

/-- The world `worldFresh` with the tunnel of the gateway, created with the secret
`secretFirst`, and nothing else provisioned. -/
def worldTunnelOnly : World :=
  { worldFresh with tunnels := [{ ID := "tunnel-0", Name := "gw1", Secret := secretFirst }] }

/-- The credential record of the gateway in `credentialsOf w`: the values under
`creds.json` of the secrets named after the gateway. -/
def credentialsOf (w : World) : List String :=
  (w.secrets.filter (fun s => s.Name = k8s.secretName "gw1")).map
    (fun s => corev1.mapGet s.Data "creds.json")

/-- The world `worldTunnelOnly` with the credential record of the gateway, holding the
secret the tunnel was created with. -/
def worldProvisioned : World :=
  { worldTunnelOnly with
    secrets := worldTunnelOnly.secrets ++
      [{ Name := "gw1-secret", Namespace := "default",
         Labels := [("app.kubernetes.io/deploymentName", "gw1")],
         Data := [("creds.json",
           k8s.encodeSecretData
             { Secret := secretFirst, TunnelID := "tunnel-0", AccountID := "" })],
         StringData := [] }] }

/-- The credential records of the world hold the secrets their tunnels were created
with: the record named after a tunnel's gateway is the encoding of that tunnel's secret
and id, with some account id. -/
def credentialMatchesTunnel (w : World) : Prop :=
  ∀ t ∈ w.tunnels, ∀ s ∈ w.secrets, s.Name = k8s.secretName t.Name →
    ∃ accountID, corev1.mapGet s.Data "creds.json"
      = k8s.encodeSecretData { Secret := t.Secret, TunnelID := t.ID, AccountID := accountID }

/-- A sequence of calls of `Reconcile` for the gateway with the namespace `ns` and the
name `name`, each with its random source and with the calls of the store that fail
during it; the world a call leaves is the world of the next one. It is `none` when a
call panics. -/
def reconcileSeq (newID : World → String) (ns name : String) :
    List ((Nat → Nat → Except String Nat) × Faults) → World → Option World
  | [], w => some w
  | (randInt, faults) :: rest, w =>
    match Reconcile (worldClients newID faults) randInt w ns name with
    | none => none
    | some o => reconcileSeq newID ns name rest o.world

end gateway

namespace cf

/-- The struct `TunnelCredentials` of `internal/clients/cf/tunnel_credentials.go`. -/
structure TunnelCredentials where
  AccountID : String
  TunnelSecret : String
  TunnelID : String
  deriving DecidableEq, Repr

/-- The function `NewTunnelCredentials`. On an error the Go function also returns an
empty record. -/
def NewTunnelCredentials (accountID tunnelID tunnelSecret : String) :
    Except String TunnelCredentials :=
  if accountID = "" then .error "AccountID is empty"
  else if tunnelID = "" then .error "TunnelID is empty"
  else if tunnelSecret = "" then .error "TunnelSecret is empty"
  else .ok { AccountID := accountID, TunnelSecret := tunnelSecret, TunnelID := tunnelID }

end cf

namespace cf

/-! ## The order on hostnames -/

theorem strLt_irrefl (x : List Char) : strLt x x = false := by
  induction x with
  | nil => rfl
  | cons a as ih => simp [strLt, ih]

theorem strLt_asymm : ∀ x y : List Char, strLt x y = true → strLt y x = false
  | _, [], h => by simp [strLt] at h
  | [], _ :: _, _ => by simp [strLt]
  | a :: as, b :: bs, h => by
    simp only [strLt] at h ⊢
    by_cases hab : a < b
    · have hba : ¬ b < a := lt_asymm hab
      simp [hba, hab]
    · by_cases hba : b < a
      · simp [hab, hba] at h
      · simp only [hab, hba, if_false] at h ⊢
        exact strLt_asymm as bs h

theorem strLt_negtrans : ∀ x y z : List Char,
    strLt x z = true → strLt x y = true ∨ strLt y z = true
  | _, _, [], h => by simp [strLt] at h
  | [], [], _ :: _, h => Or.inr h
  | [], _ :: _, _ :: _, _ => Or.inl (by simp [strLt])
  | a :: as, [], c :: cs, _ => Or.inr (by simp [strLt])
  | a :: as, b :: bs, c :: cs, h => by
    simp only [strLt] at h ⊢
    rcases lt_trichotomy a b with hab | hab | hab
    · simp [hab]
    · subst hab
      rcases lt_trichotomy a c with hac | hac | hac
      · simp [hac]
      · subst hac
        simp only [lt_irrefl, if_false] at h ⊢
        exact strLt_negtrans as bs cs h
      · have hca : ¬ a < c := lt_asymm hac
        simp [hac, hca] at h
    · rcases lt_trichotomy b c with hbc | hbc | hbc
      · simp [hbc]
      · subst hbc
        have hba : ¬ a < b := lt_asymm hab
        simp [hab, hba] at h
      · have hca : c < a := lt_trans hbc hab
        have hac : ¬ a < c := lt_asymm hca
        simp [hca, hac] at h

/-! ## The order on keys -/

theorem keyLt_same_hostname (a b : IngressConfig) (h : a.Hostname = b.Hostname) :
    keyLt a b = false := by
  simp [keyLt, isCatchAll, isWildcard, h, strLt_irrefl]

theorem keyLt_asymm (a b : IngressConfig) (h : keyLt a b = true) : keyLt b a = false := by
  unfold keyLt at h ⊢
  generalize isCatchAll a = ca at h ⊢
  generalize isCatchAll b = cb at h ⊢
  generalize isWildcard a = wa at h ⊢
  generalize isWildcard b = wb at h ⊢
  cases ca <;> cases cb <;> cases wa <;> cases wb <;> simp_all [strLt_asymm]

theorem keyLt_negtrans (a b c : IngressConfig) (h : keyLt a c = true) :
    keyLt a b = true ∨ keyLt b c = true := by
  unfold keyLt at h ⊢
  have hs := strLt_negtrans a.Hostname.data b.Hostname.data c.Hostname.data
  generalize isCatchAll a = ca at h ⊢
  generalize isCatchAll b = cb at h ⊢
  generalize isCatchAll c = cc at h ⊢
  generalize isWildcard a = wa at h ⊢
  generalize isWildcard b = wb at h ⊢
  generalize isWildcard c = wc at h ⊢
  cases ca <;> cases cb <;> cases cc <;> cases wa <;> cases wb <;> cases wc <;> simp_all

theorem data_eq_nil_iff (h : String) : h.data = [] ↔ h = "" := by
  constructor
  · intro e
    cases h
    simp_all
  · intro e
    subst e
    rfl

theorem sliceIsWildcard_of_two_le (h : String) (h2 : 2 ≤ h.utf8ByteSize) :
    sliceIsWildcard h = some (h.data.take 2 == ['*', '.']) := by
  unfold sliceIsWildcard
  rw [if_neg (by omega)]

/-- On hostnames it can slice, the comparison of `Sort` is the order on keys and does
not panic. -/
theorem less_eq_keyLt (a b : IngressConfig) (ha : sliceable a.Hostname)
    (hb : sliceable b.Hostname) : less a b = some (keyLt a b) := by
  unfold less keyLt isCatchAll isWildcard
  by_cases ea : a.Hostname = ""
  · by_cases eb : b.Hostname = ""
    · simp [ea, eb, strLt]
    · simp [ea, eb]
  · by_cases eb : b.Hostname = ""
    · simp [ea, eb]
    · have ha2 : 2 ≤ a.Hostname.utf8ByteSize := ha.resolve_left ea
      have hb2 : 2 ≤ b.Hostname.utf8ByteSize := hb.resolve_left eb
      rw [if_neg ea, if_neg eb, sliceIsWildcard_of_two_le _ ha2,
        sliceIsWildcard_of_two_le _ hb2]
      simp only [ea, eb, decide_False, bne_self_eq_false, Bool.false_eq_true, if_false]
      generalize (List.take 2 a.Hostname.data == ['*', '.']) = wa
      generalize (List.take 2 b.Hostname.data == ['*', '.']) = wb
      cases wa <;> cases wb <;> simp

theorem two_le_utf8ByteSize (h : String) (h2 : 2 ≤ h.length) : 2 ≤ h.utf8ByteSize := by
  cases h with
  | mk data =>
    match data, h2 with
    | a :: b :: t, _ =>
      have ha := Char.utf8Size_pos a
      have hb := Char.utf8Size_pos b
      simp only [String.utf8ByteSize, String.utf8ByteSize.go]
      omega

theorem sliceable_of_length (h : String) (hl : h = "" ∨ 2 ≤ h.length) : sliceable h :=
  hl.imp id (two_le_utf8ByteSize h)

/-! ## The insertion sort -/

theorem insertLeft_spec (x : IngressConfig) (hx : sliceable x.Hostname) :
    ∀ left : List IngressConfig, (∀ y ∈ left, sliceable y.Hostname) →
      ∃ r, insertLeft x left = some r ∧ r.Perm (x :: left) ∧
        (SortedRev left → SortedRev r) ∧
        ∀ h : String, r.filter (fun y => y.Hostname = h)
          = (x :: left).filter (fun y => y.Hostname = h)
  | [], _ => ⟨[x], rfl, List.Perm.refl _, fun _ => List.pairwise_singleton _ _, fun _ => rfl⟩
  | y :: left, hl => by
    have hy : sliceable y.Hostname := hl y (List.mem_cons_self _ _)
    have hleft : ∀ z ∈ left, sliceable z.Hostname := fun z hz => hl z (List.mem_cons_of_mem _ hz)
    have hless := less_eq_keyLt x y hx hy
    cases hk : keyLt x y with
    | false =>
      refine ⟨x :: y :: left, ?_, List.Perm.refl _, ?_, fun _ => rfl⟩
      · simp [insertLeft, hless, hk]
      · intro hs
        refine List.Pairwise.cons ?_ hs
        intro z hz
        rcases List.mem_cons.1 hz with rfl | hz
        · exact hk
        · cases hxz : keyLt x z with
          | false => rfl
          | true =>
            rcases keyLt_negtrans x y z hxz with h1 | h1
            · rw [hk] at h1; cases h1
            · have := List.rel_of_pairwise_cons hs hz
              rw [this] at h1; cases h1
    | true =>
      obtain ⟨r, hr, hperm, hsorted, hstable⟩ := insertLeft_spec x hx left hleft
      refine ⟨y :: r, ?_, ?_, ?_, ?_⟩
      · simp [insertLeft, hless, hk, hr]
      · exact (List.Perm.cons y hperm).trans (List.Perm.swap x y left)
      · intro hs
        refine List.Pairwise.cons ?_ (hsorted (List.Pairwise.of_cons hs))
        intro z hz
        rcases List.mem_cons.1 (hperm.subset hz) with rfl | hz
        · exact keyLt_asymm _ _ hk
        · exact List.rel_of_pairwise_cons hs hz
      · intro h
        have hne : ¬ (x.Hostname = h ∧ y.Hostname = h) := by
          rintro ⟨e1, e2⟩
          rw [keyLt_same_hostname x y (e1.trans e2.symm)] at hk
          cases hk
        have ih := hstable h
        simp only [List.filter_cons] at ih ⊢
        rw [ih]
        by_cases e1 : x.Hostname = h <;> by_cases e2 : y.Hostname = h <;> simp_all

theorem insertionSort_spec : ∀ (rest done : List IngressConfig),
    (∀ y ∈ done, sliceable y.Hostname) → (∀ y ∈ rest, sliceable y.Hostname) →
      ∃ out, insertionSort done rest = some out ∧ out.Perm (done.reverse ++ rest) ∧
        (SortedRev done → out.Pairwise (fun a b => keyLt b a = false)) ∧
        ∀ h : String, out.filter (fun y => y.Hostname = h)
          = (done.reverse ++ rest).filter (fun y => y.Hostname = h)
  | [], done, _, _ => by
    refine ⟨done.reverse, rfl, by simp, ?_, by simp⟩
    intro hs
    exact List.pairwise_reverse.2 hs
  | x :: rest, done, hd, hr => by
    have hx : sliceable x.Hostname := hr x (List.mem_cons_self _ _)
    obtain ⟨d1, hd1, hperm, hsorted, hstable⟩ := insertLeft_spec x hx done hd
    have hd1s : ∀ y ∈ d1, sliceable y.Hostname := by
      intro y hy
      rcases List.mem_cons.1 (hperm.subset hy) with rfl | hy
      · exact hx
      · exact hd y hy
    obtain ⟨out, hout, hp, hs, hst⟩ := insertionSort_spec rest d1 hd1s
      (fun y hy => hr y (List.mem_cons_of_mem _ hy))
    refine ⟨out, ?_, ?_, ?_, ?_⟩
    · simp [insertionSort, hd1, hout]
    · refine hp.trans ?_
      have : (d1.reverse).Perm (done.reverse ++ [x]) := by
        refine (List.reverse_perm d1).trans (hperm.trans ?_)
        have := (List.reverse_perm (x :: done)).symm
        simpa using this
      simpa using this.append_right rest
    · intro h
      exact hs (hsorted h)
    · intro h
      rw [hst h]
      simp only [List.filter_append, List.filter_reverse, hstable h]
      simp [List.filter_cons]
      split <;> simp

/-- The closing step of `Sort` leaves the sorted slice as it is. -/
theorem SortRoutes_eq_SliceStable (routes : List IngressConfig) :
    SortRoutes routes = SliceStable routes := by
  unfold SortRoutes
  cases hs : SliceStable routes with
  | none => rfl
  | some sorted =>
    cases hl : sorted.getLast? with
    | none => simp [hl]
    | some last =>
      have : sorted.dropLast ++ [last] = sorted :=
        List.dropLast_append_getLast? last (Option.mem_def.2 hl)
      simp [hl, this]

/-- On hostnames it can slice, `Sort` returns the stable sort of its input by the
order on keys. -/
theorem SortRoutes_spec (routes : List IngressConfig)
    (hs : ∀ r ∈ routes, sliceable r.Hostname) :
    ∃ out, SortRoutes routes = some out ∧ out.Perm routes ∧
      out.Pairwise (fun a b => keyLt b a = false) ∧
      ∀ h : String, out.filter (fun y => y.Hostname = h)
        = routes.filter (fun y => y.Hostname = h) := by
  obtain ⟨out, h1, h2, h3, h4⟩ := insertionSort_spec routes [] (by simp) hs
  refine ⟨out, ?_, by simpa using h2, h3 List.Pairwise.nil, by simpa using h4⟩
  rw [SortRoutes_eq_SliceStable]
  exact h1

end cf

namespace cf

/-! ## Uniqueness of the stable sort

Two outputs that are ordered by the key and keep the rules of each hostname in the same
order are equal: whatever stable sorting algorithm runs on a comparison that does not
panic, it returns what the insertion sort returns. -/

theorem strLt_total : ∀ x y : List Char, strLt x y = false → strLt y x = false → x = y
  | [], [], _, _ => rfl
  | [], _ :: _, h, _ => by simp [strLt] at h
  | _ :: _, [], _, h => by simp [strLt] at h
  | a :: as, b :: bs, h1, h2 => by
    simp only [strLt] at h1 h2
    rcases lt_trichotomy a b with hab | hab | hab
    · simp [hab] at h1
    · subst hab
      simp only [lt_irrefl, if_false] at h1 h2
      rw [strLt_total as bs h1 h2]
    · simp [hab] at h2

theorem hostname_eq_of_not_keyLt (a b : IngressConfig) (h1 : keyLt a b = false)
    (h2 : keyLt b a = false) : a.Hostname = b.Hostname := by
  unfold keyLt at h1 h2
  have hs := strLt_total a.Hostname.data b.Hostname.data
  have hd : a.Hostname.data = b.Hostname.data → a.Hostname = b.Hostname := by
    intro e
    cases ha : a.Hostname
    cases hb : b.Hostname
    simp_all
  generalize isCatchAll a = ca at h1 h2
  generalize isCatchAll b = cb at h1 h2
  generalize isWildcard a = wa at h1 h2
  generalize isWildcard b = wb at h1 h2
  cases ca <;> cases cb <;> cases wa <;> cases wb <;> simp_all

theorem stable_sort_unique : ∀ out1 out2 : List IngressConfig,
    out1.Pairwise (fun a b => keyLt b a = false) →
    out2.Pairwise (fun a b => keyLt b a = false) →
    (∀ h : String, out1.filter (fun r => r.Hostname = h)
      = out2.filter (fun r => r.Hostname = h)) →
    out1 = out2
  | [], [], _, _, _ => rfl
  | [], y :: t2, _, _, hf => by
    have := hf y.Hostname
    simp [List.filter_cons] at this
  | x :: t1, [], _, _, hf => by
    have := hf x.Hostname
    simp [List.filter_cons] at this
  | x :: t1, y :: t2, hs1, hs2, hf => by
    have hxy : x = y := by
      by_cases hh : x.Hostname = y.Hostname
      · have := hf x.Hostname
        simp only [List.filter_cons, hh, decide_True, if_true] at this
        exact (List.cons.inj this).1
      · exfalso
        have hx2 : x ∈ (y :: t2).filter (fun r => r.Hostname = x.Hostname) := by
          rw [← hf x.Hostname]
          simp [List.filter_cons]
        have hy1 : y ∈ (x :: t1).filter (fun r => r.Hostname = y.Hostname) := by
          rw [hf y.Hostname]
          simp [List.filter_cons]
        have hx2m : x ∈ t2 := by
          rcases List.mem_cons.1 (List.mem_filter.1 hx2).1 with e | m
          · exact absurd (congrArg IngressConfig.Hostname e) hh
          · exact m
        have hy1m : y ∈ t1 := by
          rcases List.mem_cons.1 (List.mem_filter.1 hy1).1 with e | m
          · exact absurd (congrArg IngressConfig.Hostname e).symm hh
          · exact m
        exact hh (hostname_eq_of_not_keyLt x y (List.rel_of_pairwise_cons hs2 hx2m)
          (List.rel_of_pairwise_cons hs1 hy1m))
    subst hxy
    have ht : t1 = t2 := by
      refine stable_sort_unique t1 t2 (List.Pairwise.of_cons hs1) (List.Pairwise.of_cons hs2) ?_
      intro h
      have := hf h
      simp only [List.filter_cons] at this
      split at this
      · exact (List.cons.inj this).2
      · exact this
    rw [ht]

/-! ## The artifact constructor -/

theorem validate_ok_iff (t : TunnelConfigFile) :
    validate t = .ok () ↔ ConstructionInvariants t := by
  unfold validate ConstructionInvariants
  by_cases ht : t.TunnelId = ""
  · simp [ht]
  · cases hl : t.Ingress.getLast? with
    | none =>
      have : t.Ingress = [] := List.getLast?_eq_none_iff.1 hl
      simp [ht, this]
    | some last =>
      have : t.Ingress ≠ [] := by
        intro e
        simp [e] at hl
      by_cases hh : last.Hostname = "" <;> simp [ht, this, hh]

/-- What `NewTunnelConfigFile` returns, case by case. -/
theorem NewTunnelConfigFile_eq (tunnelId : String) (rules : List IngressConfig) :
    NewTunnelConfigFile tunnelId rules =
      if tunnelId = "" then .error "failed to validate config file: TunnelId is empty"
      else .ok
        { TunnelId := tunnelId
          CredentialsFilePath := k8s.DeploymentCredentialFilePath
          Ingress :=
            match rules.getLast? with
            | none => rules ++ [IngressDefaultBackendConfig]
            | some last =>
              if last.Hostname ≠ "" then rules ++ [IngressDefaultBackendConfig] else rules } := by
  unfold NewTunnelConfigFile
  by_cases ht : tunnelId = ""
  · simp [ht, validate]
  · cases hl : rules.getLast? with
    | none => simp [ht, validate, IngressDefaultBackendConfig]
    | some last =>
      by_cases hh : last.Hostname = ""
      · simp [ht, validate, hl, hh]
      · simp [ht, validate, hh, IngressDefaultBackendConfig]

end cf

namespace http_route

open cf

/-! ## The runs of `upsertConfigMap` on a persisted string that parses -/

theorem upsertConfigMap_panics (J : JsonCodec) (Update : ConfigMap → Option String)
    (configMap : ConfigMap) (newConfig : List IngressConfig) (existing : TunnelConfigFile)
    (hparse : J.Unmarshal (configMap.get k8s.ConfigYamlFileName) = .ok existing)
    (hm : mergedConfig existing newConfig = none) :
    upsertConfigMap J Update configMap newConfig = none := by
  unfold upsertConfigMap
  simp only [hparse, hm]

theorem upsertConfigMap_marshal_fails (J : JsonCodec) (Update : ConfigMap → Option String)
    (configMap : ConfigMap) (newConfig : List IngressConfig)
    (existing merged : TunnelConfigFile) (e : String)
    (hparse : J.Unmarshal (configMap.get k8s.ConfigYamlFileName) = .ok existing)
    (hm : mergedConfig existing newConfig = some merged)
    (hj : J.Marshal merged = .error e) :
    upsertConfigMap J Update configMap newConfig
      = some { err := some ("failed to marshal new configmap: " ++ e)
               configMap := configMap, updateCalls := [] } := by
  unfold upsertConfigMap
  simp only [hparse, hm, hj]

theorem upsertConfigMap_unchanged (J : JsonCodec) (Update : ConfigMap → Option String)
    (configMap : ConfigMap) (newConfig : List IngressConfig)
    (existing merged : TunnelConfigFile)
    (hparse : J.Unmarshal (configMap.get k8s.ConfigYamlFileName) = .ok existing)
    (hm : mergedConfig existing newConfig = some merged)
    (hj : J.Marshal merged = .ok (configMap.get k8s.ConfigYamlFileName)) :
    upsertConfigMap J Update configMap newConfig
      = some { err := none, configMap := configMap, updateCalls := [] } := by
  unfold upsertConfigMap
  simp only [hparse, hm, hj, if_true]

theorem upsertConfigMap_writes (J : JsonCodec) (Update : ConfigMap → Option String)
    (configMap : ConfigMap) (newConfig : List IngressConfig)
    (existing merged : TunnelConfigFile) (text : String)
    (hparse : J.Unmarshal (configMap.get k8s.ConfigYamlFileName) = .ok existing)
    (hm : mergedConfig existing newConfig = some merged)
    (hj : J.Marshal merged = .ok text)
    (he : text ≠ configMap.get k8s.ConfigYamlFileName) :
    upsertConfigMap J Update configMap newConfig
      = some { err := Update (configMap.set k8s.ConfigYamlFileName text)
               configMap := configMap.set k8s.ConfigYamlFileName text
               updateCalls := [configMap.set k8s.ConfigYamlFileName text] } := by
  unfold upsertConfigMap
  simp only [hparse, hm, hj]
  rw [if_neg (fun e => he e.symm)]

end http_route

open cf http_route

/-! ## The claims -/

set_option maxRecDepth 100000

/-- C1 (defect of the code): `Sort` does not return on every rule sequence. On the two
rules with the one-byte hostnames `a` and `b`, and no empty-hostname rule, the
comparison evaluates the slice expression `Hostname[0:2]` on a one-byte string and
panics, so the sort produces no output. -/
theorem C1_sort_panics_on_one_byte_hostnames :
    less ⟨"b", "s2"⟩ ⟨"a", "s1"⟩ = none ∧
    SortRoutes [⟨"a", "s1"⟩, ⟨"b", "s2"⟩] = none := by
  decide

/-- C2: when every hostname is empty or at least two characters long, `Sort` returns
an output that is a permutation of the input, is ordered by the key (is-catch-all,
is-wildcard, hostname), and keeps the rules of each hostname in their input order;
the example of the test and the empty sequence sort as stated. -/
theorem C2_sort_is_the_stable_sort_by_key (routes : List IngressConfig)
    (hlen : ∀ r ∈ routes, r.Hostname = "" ∨ 2 ≤ r.Hostname.length) :
    (∃ out, SortRoutes routes = some out ∧ out.Perm routes ∧
      out.Pairwise (fun a b => keyLt b a = false) ∧
      ∀ h : String, out.filter (fun r => r.Hostname = h)
        = routes.filter (fun r => r.Hostname = h)) ∧
    SortRoutes [⟨"b.example.com", "service2"⟩, ⟨"", "service4"⟩,
        ⟨"*.example.com", "service3"⟩, ⟨"a.example.com", "service1"⟩]
      = some [⟨"a.example.com", "service1"⟩, ⟨"b.example.com", "service2"⟩,
        ⟨"*.example.com", "service3"⟩, ⟨"", "service4"⟩] ∧
    SortRoutes [] = some [] :=
  ⟨SortRoutes_spec routes (fun r hr => sliceable_of_length _ (hlen r hr)), by decide, by decide⟩

theorem C2_sort_is_the_stable_sort_by_key_witness :
    (∀ r ∈ ([⟨"b.example.com", "s2"⟩, ⟨"*.b.example.com", "s3"⟩, ⟨"", "s4"⟩,
        ⟨"b.example.com", "s1"⟩] : List IngressConfig),
      r.Hostname = "" ∨ 2 ≤ r.Hostname.length) ∧
    ∃ out, SortRoutes [⟨"b.example.com", "s2"⟩, ⟨"*.b.example.com", "s3"⟩, ⟨"", "s4"⟩,
        ⟨"b.example.com", "s1"⟩] = some out ∧
      out.Perm [⟨"b.example.com", "s2"⟩, ⟨"*.b.example.com", "s3"⟩, ⟨"", "s4"⟩,
        ⟨"b.example.com", "s1"⟩] ∧
      out.Pairwise (fun a b => keyLt b a = false) ∧
      ∀ h : String, out.filter (fun r => r.Hostname = h)
        = ([⟨"b.example.com", "s2"⟩, ⟨"*.b.example.com", "s3"⟩, ⟨"", "s4"⟩,
          ⟨"b.example.com", "s1"⟩] : List IngressConfig).filter (fun r => r.Hostname = h) :=
  ⟨by decide, (C2_sort_is_the_stable_sort_by_key _ (by decide)).1⟩

/-- C3 (defect of the code): a candidate rule whose hostname is absent from the
persisted rules is not added. On the example of the specification, the persisted
rules `[(no hostname, http_status:404)]` and the candidate `(c.example.com, svcX)`, the
loop queues nothing, the merged artifact has the persisted rules only, its serialized
form is the persisted one and nothing is written. -/
theorem C3_absent_hostname_is_not_added :
    routesToAdd [⟨"", "http_status:404"⟩] [⟨"c.example.com", "svcX"⟩] [] = [] ∧
    mergedConfig ⟨"t1", k8s.DeploymentCredentialFilePath, [⟨"", "http_status:404"⟩]⟩
        [⟨"c.example.com", "svcX"⟩]
      = some ⟨"t1", k8s.DeploymentCredentialFilePath, [⟨"", "http_status:404"⟩]⟩ ∧
    plainJson.Unmarshal textCatchAll
      = .ok ⟨"t1", k8s.DeploymentCredentialFilePath, [⟨"", "http_status:404"⟩]⟩ ∧
    upsertConfigMap plainJson updateOk (configMapOf textCatchAll) [⟨"c.example.com", "svcX"⟩]
      = some { err := none, configMap := configMapOf textCatchAll, updateCalls := [] } := by
  decide

/-- C4 (defect of the code): a candidate rule for a persisted hostname with another
target does not re-point the persisted rule. With the persisted rules
`(a.example.com, http://s1:80)` and the catch-all, and the candidate
`(a.example.com, http://s2:80)`, the merged artifact still has the persisted rule and
has no rule with the new target, and nothing is written. -/
theorem C4_existing_hostname_is_not_repointed :
    mergedConfig
        ⟨"t1", k8s.DeploymentCredentialFilePath,
          [⟨"a.example.com", "http://s1:80"⟩, ⟨"", "http_status:404"⟩]⟩
        [⟨"a.example.com", "http://s2:80"⟩]
      = some ⟨"t1", k8s.DeploymentCredentialFilePath,
          [⟨"a.example.com", "http://s1:80"⟩, ⟨"", "http_status:404"⟩]⟩ ∧
    plainJson.Unmarshal textA
      = .ok ⟨"t1", k8s.DeploymentCredentialFilePath,
          [⟨"a.example.com", "http://s1:80"⟩, ⟨"", "http_status:404"⟩]⟩ ∧
    upsertConfigMap plainJson updateOk (configMapOf textA) [⟨"a.example.com", "http://s2:80"⟩]
      = some { err := none, configMap := configMapOf textA, updateCalls := [] } := by
  decide

/-- C5 (defect of the code): the merge is not idempotent. A candidate rule identical,
hostname and target, to a persisted rule is appended once more: the first application
writes an artifact with the rule twice, and the second application of the same
fragment to what the first one wrote writes again, an artifact with the rule four
times. -/
theorem C5_identical_rule_is_written_again :
    upsertConfigMap plainJson updateOk (configMapOf textA) [⟨"a.example.com", "http://s1:80"⟩]
      = some { err := none, configMap := configMapOf textAA,
               updateCalls := [configMapOf textAA] } ∧
    upsertConfigMap plainJson updateOk (configMapOf textAA) [⟨"a.example.com", "http://s1:80"⟩]
      = some { err := none, configMap := configMapOf textAAAA,
               updateCalls := [configMapOf textAAAA] } ∧
    textAA ≠ textA ∧ textAAAA ≠ textAA := by
  decide

/-- C6: for a persisted config string that parses, `upsertConfigMap` calls the store's
`Update` exactly when the merged artifact has a serialized form and that form differs
from the persisted string, the call carrying the config map with the new string; when
the two strings are equal it returns no error, leaves the config map as it was and
calls no `Update`. -/
theorem C6_update_iff_serialized_form_differs (J : JsonCodec)
    (Update : ConfigMap → Option String) (configMap : ConfigMap)
    (newConfig : List IngressConfig) (existing : TunnelConfigFile)
    (hparse : J.Unmarshal (configMap.get k8s.ConfigYamlFileName) = .ok existing) :
    (updatesIssued (upsertConfigMap J Update configMap newConfig) ≠ [] ↔
      ∃ merged text, mergedConfig existing newConfig = some merged ∧
        J.Marshal merged = .ok text ∧ text ≠ configMap.get k8s.ConfigYamlFileName) ∧
    (∀ merged text, mergedConfig existing newConfig = some merged →
      J.Marshal merged = .ok text → text ≠ configMap.get k8s.ConfigYamlFileName →
      updatesIssued (upsertConfigMap J Update configMap newConfig)
        = [configMap.set k8s.ConfigYamlFileName text]) ∧
    (∀ merged, mergedConfig existing newConfig = some merged →
      J.Marshal merged = .ok (configMap.get k8s.ConfigYamlFileName) →
      upsertConfigMap J Update configMap newConfig
        = some { err := none, configMap := configMap, updateCalls := [] }) := by
  refine ⟨⟨?_, ?_⟩, ?_, ?_⟩
  · intro hu
    cases hm : mergedConfig existing newConfig with
    | none => rw [upsertConfigMap_panics J Update configMap newConfig existing hparse hm] at hu
              exact absurd rfl hu
    | some merged =>
      cases hj : J.Marshal merged with
      | error e =>
        rw [upsertConfigMap_marshal_fails J Update configMap newConfig existing merged e
          hparse hm hj] at hu
        exact absurd rfl hu
      | ok text =>
        by_cases he : text = configMap.get k8s.ConfigYamlFileName
        · rw [upsertConfigMap_unchanged J Update configMap newConfig existing merged
            hparse hm (he ▸ hj)] at hu
          exact absurd rfl hu
        · exact ⟨merged, text, rfl, hj, he⟩
  · rintro ⟨merged, text, hm, hj, he⟩
    rw [upsertConfigMap_writes J Update configMap newConfig existing merged text hparse hm hj he]
    simp [updatesIssued]
  · intro merged text hm hj he
    rw [upsertConfigMap_writes J Update configMap newConfig existing merged text hparse hm hj he]
    rfl
  · intro merged hm hj
    exact upsertConfigMap_unchanged J Update configMap newConfig existing merged hparse hm hj

theorem C6_update_iff_serialized_form_differs_witness :
    plainJson.Unmarshal ((configMapOf textBA).get k8s.ConfigYamlFileName)
      = .ok ⟨"t1", k8s.DeploymentCredentialFilePath,
          [⟨"b.example.com", "http://s2:80"⟩, ⟨"a.example.com", "http://s1:80"⟩]⟩ ∧
    updatesIssued (upsertConfigMap plainJson updateOk (configMapOf textBA) [])
      = [(configMapOf textBA).set k8s.ConfigYamlFileName textAB] :=
  ⟨by decide,
    (C6_update_iff_serialized_form_differs plainJson updateOk (configMapOf textBA) []
      ⟨"t1", k8s.DeploymentCredentialFilePath,
        [⟨"b.example.com", "http://s2:80"⟩, ⟨"a.example.com", "http://s1:80"⟩]⟩
      (by decide)).2.1
      ⟨"t1", k8s.DeploymentCredentialFilePath,
        [⟨"a.example.com", "http://s1:80"⟩, ⟨"b.example.com", "http://s2:80"⟩]⟩
      textAB (by decide) (by decide) (by decide)⟩

/-- C7: `NewTunnelConfigFile` fails for the empty tunnel id whatever the rules, and an
artifact it returns without error satisfies the construction invariants: tunnel id
non-empty, rule list non-empty, last rule's hostname empty. -/
theorem C7_constructor_establishes_invariants (tunnelId : String)
    (rules : List IngressConfig) (t : TunnelConfigFile) :
    NewTunnelConfigFile "" rules
      = .error "failed to validate config file: TunnelId is empty" ∧
    (NewTunnelConfigFile tunnelId rules = .ok t → ConstructionInvariants t) := by
  refine ⟨by simp [NewTunnelConfigFile_eq], ?_⟩
  intro h
  unfold NewTunnelConfigFile at h
  simp only at h
  split at h
  · cases h
  · rename_i hv
    cases h
    exact (validate_ok_iff _).1 hv

theorem C7_constructor_establishes_invariants_witness :
    NewTunnelConfigFile "t1" [⟨"a.example.com", "http://s1:80"⟩]
      = .ok ⟨"t1", k8s.DeploymentCredentialFilePath,
          [⟨"a.example.com", "http://s1:80"⟩, ⟨"", "http_status:404"⟩]⟩ ∧
    ConstructionInvariants ⟨"t1", k8s.DeploymentCredentialFilePath,
      [⟨"a.example.com", "http://s1:80"⟩, ⟨"", "http_status:404"⟩]⟩ :=
  ⟨by decide,
    (C7_constructor_establishes_invariants "t1" [⟨"a.example.com", "http://s1:80"⟩]
      ⟨"t1", k8s.DeploymentCredentialFilePath,
        [⟨"a.example.com", "http://s1:80"⟩, ⟨"", "http_status:404"⟩]⟩).2 (by decide)⟩

/-- C8 (counterexample): constructing an artifact for the tunnel id `t1` from the empty
rule set does not fail; the constructor returns the artifact with the default
catch-all rule. -/
theorem C8_empty_rule_set_is_accepted :
    NewTunnelConfigFile "t1" []
      = .ok ⟨"t1", k8s.DeploymentCredentialFilePath, [⟨"", "http_status:404"⟩]⟩ ∧
    ¬ ∃ e, NewTunnelConfigFile "t1" [] = .error e := by
  refine ⟨by decide, ?_⟩
  rintro ⟨e, he⟩
  have h : NewTunnelConfigFile "t1" []
      = .ok ⟨"t1", k8s.DeploymentCredentialFilePath, [⟨"", "http_status:404"⟩]⟩ := by decide
  rw [h] at he
  cases he

/-- C8 (amended): constructing an artifact from the empty rule set succeeds for every
non-empty tunnel id, with the default catch-all as the only rule, and fails for the
empty tunnel id with the empty-tunnel-id error; whatever the rules, the only failure
of `NewTunnelConfigFile` is the empty-tunnel-id one, so the empty-rule-set failure of
`validate` is never reported by it. -/
theorem C8_empty_rule_set_fails_only_for_empty_tunnel_id (tunnelId : String) :
    (tunnelId ≠ "" → NewTunnelConfigFile tunnelId []
      = .ok ⟨tunnelId, k8s.DeploymentCredentialFilePath, [⟨"", "http_status:404"⟩]⟩) ∧
    NewTunnelConfigFile "" [] = .error "failed to validate config file: TunnelId is empty" ∧
    (∀ rules e, NewTunnelConfigFile tunnelId rules = .error e →
      tunnelId = "" ∧ e = "failed to validate config file: TunnelId is empty") := by
  refine ⟨?_, by simp [NewTunnelConfigFile_eq], ?_⟩
  · intro hid
    simp [NewTunnelConfigFile_eq, hid, IngressDefaultBackendConfig, IngressDefaultBackend]
  · intro rules e he
    rw [NewTunnelConfigFile_eq] at he
    by_cases hid : tunnelId = ""
    · rw [if_pos hid] at he
      cases he
      exact ⟨hid, rfl⟩
    · rw [if_neg hid] at he
      cases he

theorem C8_empty_rule_set_fails_only_for_empty_tunnel_id_witness :
    ("t1" : String) ≠ "" ∧
    NewTunnelConfigFile "t1" []
      = .ok ⟨"t1", k8s.DeploymentCredentialFilePath, [⟨"", "http_status:404"⟩]⟩ :=
  ⟨by decide, (C8_empty_rule_set_fails_only_for_empty_tunnel_id "t1").1 (by decide)⟩

/-- C9: for a non-empty tunnel id, `NewTunnelConfigFile` returns the supplied rules
followed by one default catch-all `(no hostname, http_status:404)` when the list is
empty or its last rule has a hostname, and the supplied rules unchanged when the last
rule is a catch-all; from no rules it returns the single default catch-all. -/
theorem C9_default_catch_all_is_appended (tunnelId : String) (rules : List IngressConfig)
    (hid : tunnelId ≠ "") :
    ((rules = [] ∨ ∃ last, rules.getLast? = some last ∧ last.Hostname ≠ "") →
      NewTunnelConfigFile tunnelId rules
        = .ok ⟨tunnelId, k8s.DeploymentCredentialFilePath,
            rules ++ [⟨"", "http_status:404"⟩]⟩) ∧
    ((∃ last, rules.getLast? = some last ∧ last.Hostname = "") →
      NewTunnelConfigFile tunnelId rules
        = .ok ⟨tunnelId, k8s.DeploymentCredentialFilePath, rules⟩) ∧
    NewTunnelConfigFile tunnelId []
      = .ok ⟨tunnelId, k8s.DeploymentCredentialFilePath, [⟨"", "http_status:404"⟩]⟩ := by
  refine ⟨?_, ?_, ?_⟩
  · rintro (h | ⟨last, hl, hh⟩)
    · subst h
      simp [NewTunnelConfigFile_eq, hid, IngressDefaultBackendConfig, IngressDefaultBackend]
    · simp [NewTunnelConfigFile_eq, hid, hl, hh, IngressDefaultBackendConfig,
        IngressDefaultBackend]
  · rintro ⟨last, hl, hh⟩
    simp [NewTunnelConfigFile_eq, hid, hl, hh]
  · simp [NewTunnelConfigFile_eq, hid, IngressDefaultBackendConfig, IngressDefaultBackend]

theorem C9_default_catch_all_is_appended_witness :
    ("t1" : String) ≠ "" ∧
    (∃ last, ([⟨"a.example.com", "http://s1:80"⟩] : List IngressConfig).getLast? = some last ∧
      last.Hostname ≠ "") ∧
    NewTunnelConfigFile "t1" [⟨"a.example.com", "http://s1:80"⟩]
      = .ok ⟨"t1", k8s.DeploymentCredentialFilePath,
          [⟨"a.example.com", "http://s1:80"⟩] ++ [⟨"", "http_status:404"⟩]⟩ :=
  ⟨by decide, ⟨⟨"a.example.com", "http://s1:80"⟩, rfl, by decide⟩,
    (C9_default_catch_all_is_appended "t1" [⟨"a.example.com", "http://s1:80"⟩]
      (by decide)).1 (Or.inr ⟨⟨"a.example.com", "http://s1:80"⟩, rfl, by decide⟩)⟩

/-- C10 (counterexample): the persisted string `textBA` parses, to an artifact whose
rules are out of order and have no catch-all. With the empty fragment
`upsertConfigMap` returns no error and writes `textAB`, the same rules in order, an
artifact that `validate` rejects for its last rule. -/
theorem C10_invalid_artifact_is_written :
    plainJson.Unmarshal textBA
      = .ok ⟨"t1", k8s.DeploymentCredentialFilePath,
          [⟨"b.example.com", "http://s2:80"⟩, ⟨"a.example.com", "http://s1:80"⟩]⟩ ∧
    upsertConfigMap plainJson updateOk (configMapOf textBA) []
      = some { err := none, configMap := configMapOf textAB,
               updateCalls := [configMapOf textAB] } ∧
    plainJson.Unmarshal textAB
      = .ok ⟨"t1", k8s.DeploymentCredentialFilePath,
          [⟨"a.example.com", "http://s1:80"⟩, ⟨"b.example.com", "http://s2:80"⟩]⟩ ∧
    validate ⟨"t1", k8s.DeploymentCredentialFilePath,
        [⟨"a.example.com", "http://s1:80"⟩, ⟨"b.example.com", "http://s2:80"⟩]⟩
      = .error ("Last ingress rule must be a catch-all with no hostname identifier e.g. "
          ++ "`- service: http_status:404`") := by
  decide

/-- C10 (amended): `upsertConfigMap` does not validate the merged artifact. For a
persisted config string that parses, a run that returns has one of three outcomes,
none of which depends on `validate`: the encoding of the merged artifact failed and
that error is returned with nothing written; the serialized form equals the persisted
string and nothing is written; or the serialized form differs, it is written back and
the error returned is the answer of the store's `Update`. -/
theorem C10_merge_writes_without_validation (J : JsonCodec)
    (Update : ConfigMap → Option String) (configMap : ConfigMap)
    (newConfig : List IngressConfig) (existing : TunnelConfigFile) (r : UpsertResult)
    (hparse : J.Unmarshal (configMap.get k8s.ConfigYamlFileName) = .ok existing)
    (hr : upsertConfigMap J Update configMap newConfig = some r) :
    ∃ merged, mergedConfig existing newConfig = some merged ∧
      ((∃ e, J.Marshal merged = .error e ∧
          r = { err := some ("failed to marshal new configmap: " ++ e)
                configMap := configMap, updateCalls := [] }) ∨
       (J.Marshal merged = .ok (configMap.get k8s.ConfigYamlFileName) ∧
          r = { err := none, configMap := configMap, updateCalls := [] }) ∨
       (∃ text, J.Marshal merged = .ok text ∧ text ≠ configMap.get k8s.ConfigYamlFileName ∧
          r = { err := Update (configMap.set k8s.ConfigYamlFileName text)
                configMap := configMap.set k8s.ConfigYamlFileName text
                updateCalls := [configMap.set k8s.ConfigYamlFileName text] })) := by
  cases hm : mergedConfig existing newConfig with
  | none =>
    rw [upsertConfigMap_panics J Update configMap newConfig existing hparse hm] at hr
    cases hr
  | some merged =>
    refine ⟨merged, rfl, ?_⟩
    cases hj : J.Marshal merged with
    | error e =>
      rw [upsertConfigMap_marshal_fails J Update configMap newConfig existing merged e
        hparse hm hj] at hr
      exact Or.inl ⟨e, rfl, (Option.some.inj hr).symm⟩
    | ok text =>
      by_cases he : text = configMap.get k8s.ConfigYamlFileName
      · subst he
        rw [upsertConfigMap_unchanged J Update configMap newConfig existing merged
          hparse hm hj] at hr
        exact Or.inr (Or.inl ⟨rfl, (Option.some.inj hr).symm⟩)
      · rw [upsertConfigMap_writes J Update configMap newConfig existing merged text
          hparse hm hj he] at hr
        exact Or.inr (Or.inr ⟨text, rfl, he, (Option.some.inj hr).symm⟩)

theorem C10_merge_writes_without_validation_witness :
    plainJson.Unmarshal ((configMapOf textA).get k8s.ConfigYamlFileName)
      = .ok ⟨"t1", k8s.DeploymentCredentialFilePath,
          [⟨"a.example.com", "http://s1:80"⟩, ⟨"", "http_status:404"⟩]⟩ ∧
    upsertConfigMap plainJson updateOk (configMapOf textA) [⟨"a.example.com", "http://s1:80"⟩]
      = some { err := none, configMap := configMapOf textAA,
               updateCalls := [configMapOf textAA] } ∧
    ∃ merged,
      mergedConfig
          ⟨"t1", k8s.DeploymentCredentialFilePath,
            [⟨"a.example.com", "http://s1:80"⟩, ⟨"", "http_status:404"⟩]⟩
          [⟨"a.example.com", "http://s1:80"⟩] = some merged ∧
      ((∃ e, plainJson.Marshal merged = .error e ∧
          ({ err := none, configMap := configMapOf textAA,
             updateCalls := [configMapOf textAA] } : UpsertResult)
            = { err := some ("failed to marshal new configmap: " ++ e)
                configMap := configMapOf textA, updateCalls := [] }) ∨
       (plainJson.Marshal merged = .ok ((configMapOf textA).get k8s.ConfigYamlFileName) ∧
          ({ err := none, configMap := configMapOf textAA,
             updateCalls := [configMapOf textAA] } : UpsertResult)
            = { err := none, configMap := configMapOf textA, updateCalls := [] }) ∨
       (∃ text, plainJson.Marshal merged = .ok text ∧
          text ≠ (configMapOf textA).get k8s.ConfigYamlFileName ∧
          ({ err := none, configMap := configMapOf textAA,
             updateCalls := [configMapOf textAA] } : UpsertResult)
            = { err := updateOk ((configMapOf textA).set k8s.ConfigYamlFileName text)
                configMap := (configMapOf textA).set k8s.ConfigYamlFileName text
                updateCalls := [(configMapOf textA).set k8s.ConfigYamlFileName text] })) :=
  ⟨by decide, by decide,
    C10_merge_writes_without_validation plainJson updateOk (configMapOf textA)
      [⟨"a.example.com", "http://s1:80"⟩]
      ⟨"t1", k8s.DeploymentCredentialFilePath,
        [⟨"a.example.com", "http://s1:80"⟩, ⟨"", "http_status:404"⟩]⟩
      { err := none, configMap := configMapOf textAA, updateCalls := [configMapOf textAA] }
      (by decide) (by decide)⟩

/-! ## The gateway-class controller -/

namespace gateway_class
open corev1

theorem mapGet_eq_empty_iff (data : List (String × String)) (key : String) :
    mapGet data key = "" ↔ emptyOrMissing data key := by
  unfold mapGet emptyOrMissing
  cases h : data.lookup key with
  | none => simp
  | some v => simp

theorem replaceAccepted_rewritten (new : metav1.Condition) (hnew : new.Type_ = "Accepted") :
    ∀ before : List metav1.Condition, (∃ c ∈ before, c.Type_ = "Accepted") →
      ConditionsRewritten new before (replaceAccepted new before) := by
  have hall : ∀ before : List metav1.Condition,
      (∀ c ∈ replaceAccepted new before, c.Type_ = "Accepted" → c = new) ∧
      (replaceAccepted new before).filter (fun c => c.Type_ ≠ "Accepted")
        = before.filter (fun c => c.Type_ ≠ "Accepted") := by
    intro before
    induction before with
    | nil => simp [replaceAccepted]
    | cons c rest ih =>
      by_cases hc : c.Type_ = "Accepted"
      · simp only [replaceAccepted, hc, ne_eq, not_true_eq_false, if_false]
        refine ⟨?_, ?_⟩
        · intro d hd hdt
          rcases List.mem_cons.1 hd with rfl | hd
          · rfl
          · exact ih.1 d hd hdt
        · simpa [List.filter_cons, hnew, hc] using ih.2
      · simp only [replaceAccepted, ne_eq, hc, not_false_eq_true, if_true]
        refine ⟨?_, ?_⟩
        · intro d hd hdt
          rcases List.mem_cons.1 hd with rfl | hd
          · exact absurd hdt hc
          · exact ih.1 d hd hdt
        · simpa [List.filter_cons, hc] using ih.2
  intro before hex
  refine ⟨?_, (hall before).1, (hall before).2⟩
  induction before with
  | nil => simp at hex
  | cons c rest ih =>
    by_cases hc : c.Type_ = "Accepted"
    · simp [replaceAccepted, hc]
    · simp only [replaceAccepted, ne_eq, hc, not_false_eq_true, if_true]
      obtain ⟨d, hd, hdt⟩ := hex
      rcases List.mem_cons.1 hd with rfl | hd
      · exact absurd hdt hc
      · exact List.mem_cons_of_mem _ (ih ⟨d, hd, hdt⟩)

end gateway_class

namespace gateway_class
open corev1

/-- What `Reconcile` does on a class of this controller once `validate` has answered. -/
theorem Reconcile_of_validate (E : Env) (gatewayClass : gatewayv1.GatewayClass)
    (howned : gatewayClass.ControllerName = controller.Name) :
    (∀ message, validate E gatewayClass = some (some message) →
      Reconcile E (.ok gatewayClass) = some
        { result := defaultResult, err := none
          gatewayClass := some (reject E gatewayClass message).1
          statusUpdates := [(reject E gatewayClass message).1] }) ∧
    (validate E gatewayClass = some none →
      Reconcile E (.ok gatewayClass) = some
        { result := defaultResult, err := none
          gatewayClass := some (accept E gatewayClass).1
          statusUpdates := [(accept E gatewayClass).1] }) := by
  refine ⟨?_, ?_⟩
  · intro message hv
    simp [Reconcile, howned, hv]
  · intro hv
    simp [Reconcile, howned, hv]

end gateway_class

/-! ## The secret generator -/

namespace k8s

theorem letters_utf8ByteSize : letters.utf8ByteSize = 63 := by decide

theorem drawsExample_lt (i v : Nat) (h : drawsExample i 63 = .ok v) : v < 63 := by
  simp only [drawsExample, Except.ok.injEq] at h
  omega

theorem letters_data_length : letters.data.length = 63 := by decide

/-- The loop with a random source that stays below the length of the alphabet: it does
not panic; a string it returns is `ret` followed by `remaining` letters; an error it
returns is the error of one of its draws. -/
theorem generateLoop_spec (randInt : Nat → Nat → Except String Nat)
    (hsrc : ∀ i v, randInt i 63 = .ok v → v < 63) :
    ∀ (remaining i : Nat) (ret : List Char),
      (∃ tail : List Char, generateLoop randInt i remaining ret = some (.ok (String.mk (ret ++ tail))) ∧
        tail.length = remaining ∧ (∀ c ∈ tail, c ∈ letters.data) ∧
        ∀ j, j < remaining → ∃ v, randInt (i + j) 63 = .ok v) ∨
      (∃ e j, generateLoop randInt i remaining ret = some (.error e) ∧ j < remaining ∧
        randInt (i + j) 63 = .error e) := by
  intro remaining
  induction remaining with
  | zero =>
    intro i ret
    exact Or.inl ⟨[], by simp [generateLoop], rfl, by simp, by simp⟩
  | succ k ih =>
    intro i ret
    cases hd : randInt i 63 with
    | error e =>
      exact Or.inr ⟨e, 0, by simp [generateLoop, letters_utf8ByteSize, hd], by omega, by simpa using hd⟩
    | ok num =>
      have hlt : num < letters.data.length := by
        rw [letters_data_length]
        exact hsrc i num hd
      have hget : letters.data[num]? = some (letters.data[num]) := List.getElem?_eq_getElem hlt
      have hstep : generateLoop randInt i (k + 1) ret
          = generateLoop randInt (i + 1) k (ret ++ [letters.data[num]]) := by
        simp [generateLoop, letters_utf8ByteSize, hd, hget]
      rcases ih (i + 1) (ret ++ [letters.data[num]]) with ⟨tail, h1, h2, h3, h4⟩ | ⟨e, j, h1, h2, h3⟩
      · refine Or.inl ⟨letters.data[num] :: tail, ?_, by simp [h2], ?_, ?_⟩
        · rw [hstep, h1]
          simp
        · intro c hc
          rcases List.mem_cons.1 hc with rfl | hc
          · exact List.getElem_mem _
          · exact h3 c hc
        · intro j hj
          cases j with
          | zero => exact ⟨num, by simpa using hd⟩
          | succ j =>
            obtain ⟨v, hv⟩ := h4 j (by omega)
            exact ⟨v, by rw [← hv]; congr 1; omega⟩
      · refine Or.inr ⟨e, j + 1, by rw [hstep, h1], by omega, ?_⟩
        rw [← h3]
        congr 1
        omega

end k8s

/-! ## The routing fragment -/

namespace http_route

open cf

theorem fillFragment_eq (route : gatewayv1.HTTPRoute) :
    ∀ (hostnames : List String) (rules : List IngressConfig),
      fillFragment route hostnames = some rules →
      hostnames = [] ∧ rules = [] ∨
      ∃ service, backendService route = some service ∧
        rules = hostnames.map (fun hostname => { Hostname := hostname, Service := service })
  | [], rules, h => by
    simp only [fillFragment, Option.some.injEq] at h
    exact Or.inl ⟨rfl, h.symm⟩
  | hostname :: rest, rules, h => by
    simp only [fillFragment] at h
    cases hs : backendService route with
    | none => simp [hs] at h
    | some service =>
      cases hr : fillFragment route rest with
      | none => simp [hs, hr] at h
      | some tail =>
        simp only [hs, hr, Option.some.injEq] at h
        refine Or.inr ⟨service, rfl, ?_⟩
        rcases fillFragment_eq route rest tail hr with ⟨h1, h2⟩ | ⟨service2, h1, h2⟩
        · subst h1 h2
          simp [← h]
        · rw [hs] at h1
          cases h1
          simp [← h, h2]

/-- A fragment that `buildRoutingFragment` returns has one rule for each declared
hostname, in order, and one more rule, with no hostname and no target. -/
theorem buildRoutingFragment_eq (route : gatewayv1.HTTPRoute) (rules : List IngressConfig)
    (h : buildRoutingFragment route = some rules) :
    rules.length = route.Hostnames.length + 1 ∧
    rules.map (fun r => r.Hostname) = route.Hostnames ++ [""] ∧
    rules.getLast? = some { Hostname := "", Service := "" } := by
  unfold buildRoutingFragment at h
  cases hf : fillFragment route route.Hostnames with
  | none => simp [hf] at h
  | some filled =>
    simp only [hf, Option.some.injEq] at h
    subst h
    rcases fillFragment_eq route route.Hostnames filled hf with ⟨h1, h2⟩ | ⟨service, _, h2⟩
    · simp [h1, h2]
    · subst h2
      simp [Function.comp_def]

end http_route

/-! ## The gateway controller -/

namespace gateway

/-- What `ensureCloudflareTunnel` does, by the tunnels the provider lists. -/
theorem ensureCloudflareTunnel_cases {ω : Type} (C : Clients ω)
    (Loop : ReconciliationLoop) (w : ω) (tunnels : List cloudflare.Tunnel)
    (hlist : C.ListTunnels w { Name := Loop.GatewayName, IsDeleted := some false }
      = .ok tunnels) :
    (tunnels = [] →
      (ensureCloudflareTunnel C Loop w).createCalls
        = [{ Name := Loop.GatewayName, Secret := Loop.tunnelSecret, ConfigSrc := "local" }] ∧
      (ensureCloudflareTunnel C Loop w).world
        = (C.CreateTunnel w (cf.newTunnelCreateParams Loop.GatewayName Loop.tunnelSecret)).2 ∧
      (∀ created,
        (C.CreateTunnel w (cf.newTunnelCreateParams Loop.GatewayName Loop.tunnelSecret)).1 = .ok created →
        (ensureCloudflareTunnel C Loop w).tunnel = .ok created) ∧
      (∀ err,
        (C.CreateTunnel w (cf.newTunnelCreateParams Loop.GatewayName Loop.tunnelSecret)).1 = .error err →
        (ensureCloudflareTunnel C Loop w).tunnel
          = .error ("failed to create cloudflare tunnel: " ++ ("failed to create tunnel: " ++ err)))) ∧
    (∀ t, tunnels = [t] →
      (ensureCloudflareTunnel C Loop w).tunnel = .ok t ∧
      (ensureCloudflareTunnel C Loop w).createCalls = [] ∧
      (ensureCloudflareTunnel C Loop w).world = w) ∧
    (2 ≤ tunnels.length →
      cf.TunnelExists C w Loop.GatewayName
        = .error ("expected 1 tunnel, got " ++ toString tunnels.length) ∧
      (ensureCloudflareTunnel C Loop w).tunnel
        = .error ("failed to check if existingTunnel exists: "
            ++ ("expected 1 tunnel, got " ++ toString tunnels.length)) ∧
      (ensureCloudflareTunnel C Loop w).createCalls = [] ∧
      (ensureCloudflareTunnel C Loop w).world = w) := by
  refine ⟨?_, ?_, ?_⟩
  · intro h0
    subst h0
    have hex : cf.TunnelExists C w Loop.GatewayName = .ok (false, { ID := "", Name := "" }) := by
      simp [cf.TunnelExists, hlist]
    unfold ensureCloudflareTunnel
    simp only [hex, cf.CreateTunnel, cf.newTunnelCreateParams, cf.ConfigSourceLocal]
    generalize C.CreateTunnel w ⟨Loop.GatewayName, Loop.tunnelSecret, "local"⟩ = res
    obtain ⟨r, w1⟩ := res
    cases r with
    | error e => simp
    | ok t => simp
  · intro t h1
    subst h1
    have hex : cf.TunnelExists C w Loop.GatewayName = .ok (true, t) := by
      simp [cf.TunnelExists, hlist]
    unfold ensureCloudflareTunnel
    simp [hex]
  · intro h2
    have hex : cf.TunnelExists C w Loop.GatewayName
        = .error ("expected 1 tunnel, got " ++ toString tunnels.length) := by
      unfold cf.TunnelExists
      simp only [hlist]
      rw [if_pos (by omega)]
    refine ⟨hex, ?_⟩
    unfold ensureCloudflareTunnel
    simp [hex]


end gateway

namespace gateway

/-- The ownership test of the gateway controller never answers owned: its class
pointer is nil after the lookup, whatever the store holds. -/
theorem isMine_never_owned {ω : Type} (C : Clients ω) (w : ω)
    (gw : Option gatewayv1.Gateway) : isMine C w gw ≠ some (true, none) := by
  unfold isMine
  cases gw with
  | none => simp
  | some g =>
    cases h : C.GetGatewayClassIntoNil w g.GatewayClassName with
    | none => simp [h]
    | some r =>
      cases r with
      | none => simp [h]
      | some err => simp [h]

end gateway

namespace gateway

/-- When the lookup of the class in `isMine` fails, `isMine` returns not-owned with the
wrapped error, and `Reconcile` returns that error with the default requeue and the
world as it was. -/
theorem Reconcile_of_failed_class_lookup {ω : Type} (C : Clients ω)
    (randInt : Nat → Nat → Except String Nat) (w : ω) (ns name : String)
    (gw : gatewayv1.Gateway) (err : client.StoreError)
    (hgw : C.GetGateway w ns name = .ok gw)
    (hclass : C.GetGatewayClassIntoNil w gw.GatewayClassName = some (some err)) :
    isMine C w (some gw) = some (false, some ("failed to get gateway: " ++ err.Message)) ∧
    Reconcile C randInt w ns name
      = some { result := defaultResult, err := some ("failed to get gateway: " ++ err.Message),
               world := w } := by
  have hmine : isMine C w (some gw)
      = some (false, some ("failed to get gateway: " ++ err.Message)) := by
    simp [isMine, hclass]
  refine ⟨hmine, ?_⟩
  unfold Reconcile
  simp only [hgw, hmine]

/-- A call of `Reconcile` that returns leaves the world as it was: the returns before
the steps of an owned gateway hand back the world they were given, and the ownership
test never lets the call past them. -/
theorem Reconcile_world {ω : Type} (C : Clients ω) (randInt : Nat → Nat → Except String Nat)
    (w : ω) (ns name : String) (o : Outcome ω)
    (h : Reconcile C randInt w ns name = some o) : o.world = w := by
  unfold Reconcile at h
  cases hg : C.GetGateway w ns name with
  | error err =>
    simp only [hg, Option.some.injEq] at h
    rw [← h]
  | ok gw =>
    simp only [hg] at h
    have hnever := isMine_never_owned C w (some gw)
    cases hm : isMine C w (some gw) with
    | none => simp [hm] at h
    | some r =>
      obtain ⟨mine, e⟩ := r
      cases e with
      | some err =>
        simp only [hm, Option.some.injEq] at h
        rw [← h]
      | none =>
        cases mine with
        | false =>
          simp only [hm, Option.some.injEq] at h
          rw [← h]
        | true => exact absurd hm hnever

/-- In the concrete world every call of `Reconcile` returns. -/
theorem Reconcile_worldClients_returns (newID : World → String) (faults : Faults)
    (randInt : Nat → Nat → Except String Nat) (w : World) (ns name : String) :
    ∃ o, Reconcile (worldClients newID faults) randInt w ns name = some o := by
  cases hg : (worldClients newID faults).GetGateway w ns name with
  | error err =>
    refine ⟨{ result := { Requeue := false, RequeueAfter := 0 },
              err := client.IgnoreNotFound err, world := w }, ?_⟩
    simp only [Reconcile, hg]
  | ok gw =>
    exact ⟨_, (Reconcile_of_failed_class_lookup (worldClients newID faults) randInt w ns name gw
      { IsNotFound := false, Message := "expected pointer, but got nil" } hg rfl).2⟩

/-- In the concrete world a sequence of reconciles returns and leaves the world as it
was. -/
theorem reconcileSeq_eq (newID : World → String) (ns name : String) :
    ∀ (runs : List ((Nat → Nat → Except String Nat) × Faults)) (w : World),
      reconcileSeq newID ns name runs w = some w
  | [], _ => rfl
  | (randInt, faults) :: rest, w => by
    obtain ⟨o, ho⟩ := Reconcile_worldClients_returns newID faults randInt w ns name
    have hw := Reconcile_world _ randInt w ns name o ho
    simp only [reconcileSeq, ho]
    rw [hw]
    exact reconcileSeq_eq newID ns name rest w

/-- The steps of an owned gateway, which no call of `Reconcile` reaches, run twice on
their own: when the first run creates the tunnel with `secretFirst` and stops at a
failed creation of the config map, the second run reuses the tunnel and creates the
credential record with its own secret `secretSecond`. -/
theorem reconcileOwned_second_run_uses_its_own_secret :
    k8s.GenerateRandomString k8s.drawsExample 32 = some (.ok secretFirst) ∧
    k8s.GenerateRandomString k8s.drawsExample2 32 = some (.ok secretSecond) ∧
    (reconcileOwned (worldClients nextTunnelID configMapFault)
        k8s.drawsExample worldFresh gatewayOne).map (fun o => o.world)
      = some worldTunnelOnly ∧
    (reconcileOwned (worldClients nextTunnelID noFaults)
        k8s.drawsExample2 worldTunnelOnly gatewayOne).map
        (fun o => (o.world.tunnels, credentialsOf o.world))
      = some ([{ ID := "tunnel-0", Name := "gw1", Secret := secretFirst }],
          [k8s.encodeSecretData
            { Secret := secretSecond, TunnelID := "tunnel-0", AccountID := "" }]) ∧
    secretSecond ≠ secretFirst := by
  decide

theorem worldProvisioned_matches : credentialMatchesTunnel worldProvisioned := by
  intro t ht s hs hname
  have ht2 : t = { ID := "tunnel-0", Name := "gw1", Secret := secretFirst } := by
    simpa [worldProvisioned, worldTunnelOnly] using ht
  subst ht2
  have hs2 : s = gateway_class.secretComplete ∨
      s = { Name := "gw1-secret", Namespace := "default",
            Labels := [("app.kubernetes.io/deploymentName", "gw1")],
            Data := [("creds.json",
              k8s.encodeSecretData
                { Secret := secretFirst, TunnelID := "tunnel-0", AccountID := "" })],
            StringData := [] } := by
    simpa [worldProvisioned, worldTunnelOnly, worldFresh] using hs
  rcases hs2 with rfl | rfl
  · exact absurd hname (by decide)
  · exact ⟨"", by decide⟩

end gateway

/-! ## The merged artifact -/

namespace http_route

open cf

/-- The inner loop queues only the candidate itself, and only when a persisted rule
equals it. -/
theorem mem_routesToAddFor (newRoute : IngressConfig) :
    ∀ (existing acc : List IngressConfig) (r : IngressConfig),
      r ∈ routesToAddFor newRoute existing acc → r ∈ acc ∨ r ∈ existing
  | [], acc, r, h => by
    simp only [routesToAddFor] at h
    exact Or.inl h
  | existingRoute :: rest, acc, r, h => by
    simp only [routesToAddFor] at h
    by_cases hh : newRoute.Hostname = existingRoute.Hostname
    · by_cases hs : newRoute.Service = existingRoute.Service
      · simp only [ne_eq, hh, hs, not_true_eq_false, if_false] at h
        rcases mem_routesToAddFor newRoute rest (acc ++ [newRoute]) r h with h1 | h1
        · rcases List.mem_append.1 h1 with h2 | h2
          · exact Or.inl h2
          · have hr : r = existingRoute := by
              rw [List.mem_singleton.1 h2]
              cases newRoute
              cases existingRoute
              simp_all
            exact Or.inr (hr ▸ List.mem_cons_self _ _)
        · exact Or.inr (List.mem_cons_of_mem _ h1)
      · simp only [ne_eq, hh, hs, not_true_eq_false, not_false_eq_true, if_true, if_false] at h
        exact (mem_routesToAddFor newRoute rest acc r h).imp id (List.mem_cons_of_mem _)
    · simp only [ne_eq, hh, not_false_eq_true, if_true] at h
      exact (mem_routesToAddFor newRoute rest acc r h).imp id (List.mem_cons_of_mem _)

/-- Every rule the merge queues is a persisted rule. -/
theorem mem_routesToAdd (existing : List IngressConfig) :
    ∀ (newConfig acc : List IngressConfig) (r : IngressConfig),
      r ∈ routesToAdd existing newConfig acc → r ∈ acc ∨ r ∈ existing
  | [], acc, r, h => by
    simp only [routesToAdd] at h
    exact Or.inl h
  | newRoute :: rest, acc, r, h => by
    simp only [routesToAdd] at h
    rcases mem_routesToAdd existing rest _ r h with h1 | h1
    · exact mem_routesToAddFor newRoute existing acc r h1
    · exact Or.inr h1

/-- In a list ordered by the key that holds a catch-all, the last rule is a
catch-all. -/
theorem last_isCatchAll_of_sorted (out : List IngressConfig)
    (hsorted : out.Pairwise (fun a b => keyLt b a = false))
    (hc : ∃ c ∈ out, c.Hostname = "") :
    ∃ last, out.getLast? = some last ∧ last.Hostname = "" := by
  obtain ⟨c, hcm, hce⟩ := hc
  cases hl : out.getLast? with
  | none =>
    have : out = [] := List.getLast?_eq_none_iff.1 hl
    rw [this] at hcm
    cases hcm
  | some last =>
    refine ⟨last, rfl, ?_⟩
    have hsplit : out.dropLast ++ [last] = out :=
      List.dropLast_append_getLast? last (Option.mem_def.2 hl)
    by_contra hne
    rw [← hsplit] at hcm hsorted
    rcases List.mem_append.1 hcm with hin | hin
    · have hrel := (List.pairwise_append.1 hsorted).2.2 c hin last (List.mem_singleton.2 rfl)
      have : keyLt last c = true := by
        simp [keyLt, isCatchAll, hce, hne]
      rw [hrel] at this
      cases this
    · rw [List.mem_singleton.1 hin] at hce
      exact hne hce

/-- The merged artifact of a persisted artifact that satisfies the construction
invariants and whose hostnames the sort can slice. -/
theorem mergedConfig_valid (existing : TunnelConfigFile) (newConfig : List IngressConfig)
    (hinv : ConstructionInvariants existing)
    (hs : ∀ r ∈ existing.Ingress, sliceable r.Hostname) :
    ∃ merged, mergedConfig existing newConfig = some merged ∧
      ConstructionInvariants merged ∧ merged.TunnelId = existing.TunnelId ∧
      merged.CredentialsFilePath = existing.CredentialsFilePath ∧
      (∀ r ∈ existing.Ingress, r ∈ merged.Ingress) ∧
      ∀ m ∈ merged.Ingress, m ∈ existing.Ingress := by
  obtain ⟨hid, hne, last, hlast, hempty⟩ := hinv
  have hall : ∀ r ∈ existing.Ingress ++ routesToAdd existing.Ingress newConfig [],
      r ∈ existing.Ingress := by
    intro r hr
    rcases List.mem_append.1 hr with h | h
    · exact h
    · rcases mem_routesToAdd existing.Ingress newConfig [] r h with h1 | h1
      · cases h1
      · exact h1
  obtain ⟨out, hout, hperm, hsorted, _⟩ :=
    SortRoutes_spec (existing.Ingress ++ routesToAdd existing.Ingress newConfig [])
      (fun r hr => hs r (hall r hr))
  have hlastmem : last ∈ existing.Ingress := by
    rw [← List.dropLast_append_getLast? last (Option.mem_def.2 hlast)]
    simp
  have hmem : ∀ r ∈ existing.Ingress, r ∈ out := fun r hr =>
    hperm.symm.subset (List.mem_append_left _ hr)
  refine ⟨{ existing with Ingress := out }, ?_, ⟨hid, ?_, ?_⟩, rfl, rfl, hmem, ?_⟩
  · simp [mergedConfig, hout]
  · intro he
    have he2 : out = [] := he
    have := hmem last hlastmem
    rw [he2] at this
    cases this
  · exact last_isCatchAll_of_sorted out hsorted ⟨last, hmem last hlastmem, hempty⟩
  · intro m hm
    exact hall m (hperm.subset hm)

end http_route

open cf http_route gateway_class corev1

/-- C11 (defect of the code): the fragment has one rule more than the route has
hostnames. For the route with the one hostname `a.example.com` the fragment has two
rules, the rule of the hostname and a rule with no hostname and no target, the last
element of a slice made one element too long; and for a route whose backend names no
namespace the method panics and returns no fragment. -/
theorem C11_fragment_has_one_rule_more :
    buildRoutingFragment routeOneHostname
      = some [⟨"a.example.com", "http://web.default.svc.cluster.local:\u1F90"⟩, ⟨"", ""⟩] ∧
    buildRoutingFragment routeNoNamespace = none := by
  decide

/-- C12: `ensureCloudflareTunnel` decides on the tunnels the provider lists for the
name of the gateway among the tunnels that are not deleted. With none it makes one
create call, with the name of the gateway, the secret of this reconcile and the
config source `local`, and returns the tunnel the provider created (the wrapped error
when the create fails). With exactly one it returns that tunnel and makes no create
call. With more than one `TunnelExists` fails with `expected 1 tunnel, got n`,
`ensureCloudflareTunnel` returns an error and no create call is made. -/
theorem C12_tunnel_ensure_decides_on_the_matches {ω : Type} (C : gateway.Clients ω)
    (Loop : gateway.ReconciliationLoop) (w : ω) (tunnels : List cloudflare.Tunnel)
    (hlist : C.ListTunnels w { Name := Loop.GatewayName, IsDeleted := some false }
      = .ok tunnels) :
    (tunnels = [] →
      (gateway.ensureCloudflareTunnel C Loop w).createCalls
        = [{ Name := Loop.GatewayName, Secret := Loop.tunnelSecret, ConfigSrc := "local" }] ∧
      (gateway.ensureCloudflareTunnel C Loop w).world
        = (C.CreateTunnel w (cf.newTunnelCreateParams Loop.GatewayName Loop.tunnelSecret)).2 ∧
      (∀ created,
        (C.CreateTunnel w (cf.newTunnelCreateParams Loop.GatewayName Loop.tunnelSecret)).1 = .ok created →
        (gateway.ensureCloudflareTunnel C Loop w).tunnel = .ok created) ∧
      (∀ err,
        (C.CreateTunnel w (cf.newTunnelCreateParams Loop.GatewayName Loop.tunnelSecret)).1 = .error err →
        (gateway.ensureCloudflareTunnel C Loop w).tunnel
          = .error ("failed to create cloudflare tunnel: " ++ ("failed to create tunnel: " ++ err)))) ∧
    (∀ t, tunnels = [t] →
      (gateway.ensureCloudflareTunnel C Loop w).tunnel = .ok t ∧
      (gateway.ensureCloudflareTunnel C Loop w).createCalls = [] ∧
      (gateway.ensureCloudflareTunnel C Loop w).world = w) ∧
    (2 ≤ tunnels.length →
      cf.TunnelExists C w Loop.GatewayName
        = .error ("expected 1 tunnel, got " ++ toString tunnels.length) ∧
      (gateway.ensureCloudflareTunnel C Loop w).tunnel
        = .error ("failed to check if existingTunnel exists: "
            ++ ("expected 1 tunnel, got " ++ toString tunnels.length)) ∧
      (gateway.ensureCloudflareTunnel C Loop w).createCalls = [] ∧
      (gateway.ensureCloudflareTunnel C Loop w).world = w) :=
  gateway.ensureCloudflareTunnel_cases C Loop w tunnels hlist

theorem C12_tunnel_ensure_decides_on_the_matches_witness :
    (gateway.worldClients gateway.nextTunnelID gateway.noFaults).ListTunnels gateway.worldFresh
        { Name := "gw1", IsDeleted := some false } = .ok [] ∧
    (gateway.ensureCloudflareTunnel (gateway.worldClients gateway.nextTunnelID gateway.noFaults)
        ⟨"gw1", "default", "", "s3cr3t", ""⟩ gateway.worldFresh).createCalls
      = [{ Name := "gw1", Secret := "s3cr3t", ConfigSrc := "local" }] :=
  ⟨by decide,
    ((C12_tunnel_ensure_decides_on_the_matches
      (gateway.worldClients gateway.nextTunnelID gateway.noFaults)
      ⟨"gw1", "default", "", "s3cr3t", ""⟩ gateway.worldFresh [] (by decide)).1 rfl).1⟩

/-- C13: over the provider that holds the tunnels that are not deleted and on a create
adds one tunnel with the name given, for two reconciles of a gateway (same name,
whatever their secrets) and a starting state with at most one tunnel of that name, the
two calls of `ensureCloudflareTunnel` in sequence return tunnels with the same id and
make at most one create call in total. -/
theorem C13_tunnel_ensure_is_idempotent (newID : gateway.World → String)
    (faults : gateway.Faults) (Loop1 Loop2 : gateway.ReconciliationLoop) (w : gateway.World)
    (hname : Loop1.GatewayName = Loop2.GatewayName)
    (hone : (w.tunnels.filter (fun t => t.Name = Loop1.GatewayName)).length ≤ 1) :
    ∃ t1 t2,
      (gateway.ensureCloudflareTunnel (gateway.worldClients newID faults) Loop1 w).tunnel
        = .ok t1 ∧
      (gateway.ensureCloudflareTunnel (gateway.worldClients newID faults) Loop2
        (gateway.ensureCloudflareTunnel (gateway.worldClients newID faults) Loop1 w).world).tunnel
        = .ok t2 ∧
      t1.ID = t2.ID ∧
      ((gateway.ensureCloudflareTunnel (gateway.worldClients newID faults) Loop1 w).createCalls
        ++ (gateway.ensureCloudflareTunnel (gateway.worldClients newID faults) Loop2
          (gateway.ensureCloudflareTunnel (gateway.worldClients newID faults) Loop1
            w).world).createCalls).length ≤ 1 := by
  have hlist : ∀ (Loop : gateway.ReconciliationLoop) (v : gateway.World),
      (gateway.worldClients newID faults).ListTunnels v
        { Name := Loop.GatewayName, IsDeleted := some false }
        = .ok (gateway.tunnelsNamed v Loop.GatewayName) := fun _ _ => rfl
  cases hf : w.tunnels.filter (fun t => t.Name = Loop1.GatewayName) with
  | nil =>
    have h0 : gateway.tunnelsNamed w Loop1.GatewayName = [] := by
      simp [gateway.tunnelsNamed, hf]
    obtain ⟨hc, hw, ht, _⟩ :=
      (gateway.ensureCloudflareTunnel_cases (gateway.worldClients newID faults) Loop1 w _
        (hlist Loop1 w)).1 h0
    have ht1 := ht { ID := newID w, Name := Loop1.GatewayName } rfl
    have hw1 : (gateway.ensureCloudflareTunnel (gateway.worldClients newID faults) Loop1
        w).world = { w with tunnels := w.tunnels
          ++ [{ ID := newID w, Name := Loop1.GatewayName, Secret := Loop1.tunnelSecret }] } :=
      hw
    have h1 : gateway.tunnelsNamed
        (gateway.ensureCloudflareTunnel (gateway.worldClients newID faults) Loop1 w).world
        Loop2.GatewayName = [{ ID := newID w, Name := Loop1.GatewayName }] := by
      rw [hw1, ← hname]
      simp [gateway.tunnelsNamed, hf]
    obtain ⟨ht2, hc2, _⟩ :=
      (gateway.ensureCloudflareTunnel_cases (gateway.worldClients newID faults) Loop2 _ _
        (hlist Loop2 _)).2.1 _ h1
    exact ⟨_, _, ht1, ht2, rfl, by simp [hc, hc2]⟩
  | cons t rest =>
    have hrest : rest = [] := by
      rw [hf] at hone
      simpa using hone
    subst hrest
    have h0 : gateway.tunnelsNamed w Loop1.GatewayName = [{ ID := t.ID, Name := t.Name }] := by
      simp [gateway.tunnelsNamed, hf]
    obtain ⟨ht1, hc1, hw1⟩ :=
      (gateway.ensureCloudflareTunnel_cases (gateway.worldClients newID faults) Loop1 w _
        (hlist Loop1 w)).2.1 _ h0
    have h1 : gateway.tunnelsNamed
        (gateway.ensureCloudflareTunnel (gateway.worldClients newID faults) Loop1 w).world
        Loop2.GatewayName = [{ ID := t.ID, Name := t.Name }] := by
      rw [hw1, ← hname]
      exact h0
    obtain ⟨ht2, hc2, _⟩ :=
      (gateway.ensureCloudflareTunnel_cases (gateway.worldClients newID faults) Loop2 _ _
        (hlist Loop2 _)).2.1 _ h1
    exact ⟨_, _, ht1, ht2, rfl, by simp [hc1, hc2]⟩

theorem C13_tunnel_ensure_is_idempotent_witness :
    (gateway.worldFresh.tunnels.filter (fun t => t.Name = "gw1")).length ≤ 1 ∧
    ∃ t1 t2,
      (gateway.ensureCloudflareTunnel (gateway.worldClients gateway.nextTunnelID gateway.noFaults)
        ⟨"gw1", "default", "", "first", ""⟩ gateway.worldFresh).tunnel = .ok t1 ∧
      (gateway.ensureCloudflareTunnel (gateway.worldClients gateway.nextTunnelID gateway.noFaults)
        ⟨"gw1", "default", "", "second", ""⟩
        (gateway.ensureCloudflareTunnel
          (gateway.worldClients gateway.nextTunnelID gateway.noFaults)
          ⟨"gw1", "default", "", "first", ""⟩ gateway.worldFresh).world).tunnel = .ok t2 ∧
      t1.ID = t2.ID ∧
      ((gateway.ensureCloudflareTunnel
          (gateway.worldClients gateway.nextTunnelID gateway.noFaults)
          ⟨"gw1", "default", "", "first", ""⟩ gateway.worldFresh).createCalls
        ++ (gateway.ensureCloudflareTunnel
          (gateway.worldClients gateway.nextTunnelID gateway.noFaults)
          ⟨"gw1", "default", "", "second", ""⟩
          (gateway.ensureCloudflareTunnel
            (gateway.worldClients gateway.nextTunnelID gateway.noFaults)
            ⟨"gw1", "default", "", "first", ""⟩ gateway.worldFresh).world).createCalls).length
        ≤ 1 :=
  ⟨by decide,
    C13_tunnel_ensure_is_idempotent gateway.nextTunnelID gateway.noFaults
      ⟨"gw1", "default", "", "first", ""⟩ ⟨"gw1", "default", "", "second", ""⟩
      gateway.worldFresh rfl (by decide)⟩

/-- C14: for every sequence of reconciles of one gateway, whatever the random source
and the failures of the store in each of them, every reconcile returns and the world
after the sequence is the world before it: no tunnel and no credential record is
created or changed, so a world in which every credential record holds the secret its
tunnel was created with stays such a world. (No reconcile gets past the ownership
test, so no reconcile creates a tunnel or a credential at all.) -/
theorem C14_reconciles_keep_the_credential_of_the_tunnel (newID : gateway.World → String)
    (ns name : String) (runs : List ((Nat → Nat → Except String Nat) × gateway.Faults))
    (w : gateway.World) (hmatch : gateway.credentialMatchesTunnel w) :
    ∃ after, gateway.reconcileSeq newID ns name runs w = some after ∧
      gateway.credentialMatchesTunnel after ∧ after.secrets = w.secrets ∧
      after.tunnels = w.tunnels :=
  ⟨w, gateway.reconcileSeq_eq newID ns name runs w, hmatch, rfl, rfl⟩

theorem C14_reconciles_keep_the_credential_of_the_tunnel_witness :
    gateway.credentialMatchesTunnel gateway.worldProvisioned ∧
    ∃ after,
      gateway.reconcileSeq gateway.nextTunnelID "default" "gw1"
        [(k8s.drawsExample, gateway.configMapFault), (k8s.drawsExample2, gateway.noFaults)]
        gateway.worldProvisioned = some after ∧
      gateway.credentialMatchesTunnel after ∧
      after.secrets = gateway.worldProvisioned.secrets ∧
      after.tunnels = gateway.worldProvisioned.tunnels :=
  ⟨gateway.worldProvisioned_matches,
    C14_reconciles_keep_the_credential_of_the_tunnel gateway.nextTunnelID "default" "gw1"
      [(k8s.drawsExample, gateway.configMapFault), (k8s.drawsExample2, gateway.noFaults)]
      gateway.worldProvisioned gateway.worldProvisioned_matches⟩

/-- C15: `ensureTunnelSecret` and `createInitialConfigMapIfNotExists` ask the store to
create the credential secret (the config map) only when its lookup answered
not-found; when the lookup finds the object they return no error, make no call that
writes and leave the world as it was; when the lookup fails otherwise they return the
wrapped error, make no call that writes and leave the world as it was. -/
theorem C15_create_only_when_not_found {ω : Type} (C : gateway.Clients ω)
    (Loop : gateway.ReconciliationLoop) (w : ω) :
    ((gateway.ensureTunnelSecret C Loop w).calls ≠ [] →
      ∃ err, C.GetSecret w (k8s.secretName Loop.GatewayName) Loop.GatewayNamespace
        = .error err ∧ err.IsNotFound = true) ∧
    (∀ json existing,
      C.MarshalSecretData ⟨Loop.tunnelSecret, Loop.tunnelID, Loop.accountID⟩ = .ok json →
      C.GetSecret w (k8s.secretName Loop.GatewayName) Loop.GatewayNamespace = .ok existing →
      (gateway.ensureTunnelSecret C Loop w).err = none ∧
      (gateway.ensureTunnelSecret C Loop w).calls = [] ∧
      (gateway.ensureTunnelSecret C Loop w).world = w) ∧
    (∀ json err,
      C.MarshalSecretData ⟨Loop.tunnelSecret, Loop.tunnelID, Loop.accountID⟩ = .ok json →
      C.GetSecret w (k8s.secretName Loop.GatewayName) Loop.GatewayNamespace = .error err →
      err.IsNotFound = false →
      (gateway.ensureTunnelSecret C Loop w).err
        = some ("failed to get existing secret: " ++ err.Message) ∧
      (gateway.ensureTunnelSecret C Loop w).calls = [] ∧
      (gateway.ensureTunnelSecret C Loop w).world = w) ∧
    ((gateway.createInitialConfigMapIfNotExists C Loop w).calls ≠ [] →
      ∃ err, C.GetConfigMap w (k8s.ConfigMapName Loop.GatewayName) Loop.GatewayNamespace
        = .error err ∧ err.IsNotFound = true) ∧
    (∀ existing,
      C.GetConfigMap w (k8s.ConfigMapName Loop.GatewayName) Loop.GatewayNamespace
        = .ok existing →
      (gateway.createInitialConfigMapIfNotExists C Loop w).err = none ∧
      (gateway.createInitialConfigMapIfNotExists C Loop w).calls = [] ∧
      (gateway.createInitialConfigMapIfNotExists C Loop w).world = w) ∧
    (∀ err,
      C.GetConfigMap w (k8s.ConfigMapName Loop.GatewayName) Loop.GatewayNamespace
        = .error err →
      err.IsNotFound = false →
      (gateway.createInitialConfigMapIfNotExists C Loop w).err
        = some ("failed to get existing configmap: " ++ err.Message) ∧
      (gateway.createInitialConfigMapIfNotExists C Loop w).calls = [] ∧
      (gateway.createInitialConfigMapIfNotExists C Loop w).world = w) := by
  refine ⟨?_, ?_, ?_, ?_, ?_, ?_⟩
  · intro hcalls
    unfold gateway.ensureTunnelSecret at hcalls
    simp only [k8s.NewTunnelSecretData, k8s.BuildTunnelSecret] at hcalls
    cases hm : C.MarshalSecretData ⟨Loop.tunnelSecret, Loop.tunnelID, Loop.accountID⟩ with
    | error e => simp [hm] at hcalls
    | ok json =>
      simp only [hm] at hcalls
      cases hg : C.GetSecret w (k8s.secretName Loop.GatewayName) Loop.GatewayNamespace with
      | ok existing => simp [hg] at hcalls
      | error err =>
        refine ⟨err, rfl, ?_⟩
        cases hnf : err.IsNotFound with
        | true => rfl
        | false => simp [hg, hnf] at hcalls
  · intro json existing hm hg
    unfold gateway.ensureTunnelSecret
    simp [k8s.NewTunnelSecretData, k8s.BuildTunnelSecret, hm, hg]
  · intro json err hm hg hnf
    unfold gateway.ensureTunnelSecret
    simp [k8s.NewTunnelSecretData, k8s.BuildTunnelSecret, hm, hg, hnf]
  · intro hcalls
    unfold gateway.createInitialConfigMapIfNotExists at hcalls
    cases hg : C.GetConfigMap w (k8s.ConfigMapName Loop.GatewayName) Loop.GatewayNamespace with
    | ok existing => simp [hg] at hcalls
    | error err =>
      refine ⟨err, rfl, ?_⟩
      cases hnf : err.IsNotFound with
      | true => rfl
      | false => simp [hg, hnf] at hcalls
  · intro existing hg
    unfold gateway.createInitialConfigMapIfNotExists
    simp [hg]
  · intro err hg hnf
    unfold gateway.createInitialConfigMapIfNotExists
    simp [hg, hnf]

theorem C15_create_only_when_not_found_witness :
    (gateway.ensureTunnelSecret (gateway.worldClients gateway.nextTunnelID gateway.noFaults)
        ⟨"gw1", "default", "tunnel-0", "s3cr3t", ""⟩ gateway.worldFresh).calls ≠ [] ∧
    ∃ err, (gateway.worldClients gateway.nextTunnelID gateway.noFaults).GetSecret
        gateway.worldFresh (k8s.secretName "gw1") "default" = .error err ∧
      err.IsNotFound = true :=
  ⟨by decide,
    (C15_create_only_when_not_found
      (gateway.worldClients gateway.nextTunnelID gateway.noFaults)
      ⟨"gw1", "default", "tunnel-0", "s3cr3t", ""⟩ gateway.worldFresh).1 (by decide)⟩

/-- C16: `validateConfig` fails exactly when one of the fields `api_token`, `domain`,
`email`, `account_id` of the credential is empty or missing, and the error is the one
of the first such field in that order; with `api_token` present and `domain` empty or
missing it is `secret does not contain a domain key`. The result is a function of the
credential alone, so it is the same on every invocation while the credential is. -/
theorem C16_validateConfig_reports_first_missing_field (configSecret : Secret) :
    (validateConfig configSecret ≠ none ↔
      emptyOrMissing configSecret.Data "api_token" ∨ emptyOrMissing configSecret.Data "domain" ∨
      emptyOrMissing configSecret.Data "email" ∨
      emptyOrMissing configSecret.Data "account_id") ∧
    (emptyOrMissing configSecret.Data "api_token" →
      validateConfig configSecret
        = some "secret does not contain a CLOUDFLARE_API_TOKEN key") ∧
    (¬ emptyOrMissing configSecret.Data "api_token" →
      emptyOrMissing configSecret.Data "domain" →
      validateConfig configSecret = some "secret does not contain a domain key") ∧
    (¬ emptyOrMissing configSecret.Data "api_token" →
      ¬ emptyOrMissing configSecret.Data "domain" →
      emptyOrMissing configSecret.Data "email" →
      validateConfig configSecret = some "secret does not contain an email key") ∧
    (¬ emptyOrMissing configSecret.Data "api_token" →
      ¬ emptyOrMissing configSecret.Data "domain" →
      ¬ emptyOrMissing configSecret.Data "email" →
      emptyOrMissing configSecret.Data "account_id" →
      validateConfig configSecret = some "secret does not contain an account_id key") := by
  simp only [← mapGet_eq_empty_iff]
  unfold validateConfig
  by_cases h1 : mapGet configSecret.Data "api_token" = ""
  · simp [h1]
  · by_cases h2 : mapGet configSecret.Data "domain" = ""
    · simp [h1, h2]
    · by_cases h3 : mapGet configSecret.Data "email" = ""
      · simp [h1, h2, h3]
      · by_cases h4 : mapGet configSecret.Data "account_id" = ""
        · simp [h1, h2, h3, h4]
        · simp [h1, h2, h3, h4]

theorem C16_validateConfig_reports_first_missing_field_witness :
    ¬ emptyOrMissing secretNoDomain.Data "api_token" ∧
    emptyOrMissing secretNoDomain.Data "domain" ∧
    validateConfig secretNoDomain = some "secret does not contain a domain key" :=
  ⟨by decide, by decide,
    (C16_validateConfig_reports_first_missing_field secretNoDomain).2.2.1
      (by decide) (by decide)⟩

/-- C17 (counterexample): the provider answers with status 502 and a body that is not
JSON. `validateToken` returns the error `could not parse response from cloudflare`,
which carries neither the status code nor a message of the provider. -/
theorem C17_unparsed_answer_carries_no_status :
    plainDecode "<html>502 Bad Gateway</html>" = none ∧
    validateToken (fun _ => .ok ⟨502, "<html>502 Bad Gateway</html>"⟩) plainDecode
        secretComplete
      = some (some "could not parse response from cloudflare") := by
  decide

/-- C17 (amended): on an answer of the provider, `validateToken` returns no error for
status 200 and the error `invalid token` for status 400; for another status it returns
`could not parse response from cloudflare` when the body does not decode, and, when
the body decodes and lists at least one error, the error that carries the status code
and the message of the first error listed. -/
theorem C17_validateToken_maps_the_answer (Do : String → Except String Response)
    (Decode : String → Option cloudflareTokenValidationResponse) (configSecret : Secret)
    (resp : Response)
    (hdo : Do ("Bearer " ++ mapGet configSecret.Data "api_token") = .ok resp) :
    (resp.StatusCode = 200 → validateToken Do Decode configSecret = some none) ∧
    (resp.StatusCode = 400 →
      validateToken Do Decode configSecret = some (some "invalid token")) ∧
    (resp.StatusCode ≠ 200 → resp.StatusCode ≠ 400 → Decode resp.Body = none →
      validateToken Do Decode configSecret
        = some (some "could not parse response from cloudflare")) ∧
    (resp.StatusCode ≠ 200 → resp.StatusCode ≠ 400 →
      ∀ p first rest, Decode resp.Body = some p → p.Errors = first :: rest →
        validateToken Do Decode configSecret
          = some (some ("failed cloudflare token validation: expected 200 OK , got "
              ++ toString resp.StatusCode ++ ": " ++ first.Message))) := by
  unfold validateToken
  simp only [hdo]
  refine ⟨?_, ?_, ?_, ?_⟩
  · intro h
    simp [h]
  · intro h
    simp [h]
  · intro h1 h2 hd
    simp [h1, h2, hd]
  · intro h1 h2 p first rest hd he
    simp [h1, h2, hd, he]

theorem C17_validateToken_maps_the_answer_witness :
    (fun _ => .ok ⟨403, bodyInvalidToken⟩ : String → Except String Response)
        ("Bearer " ++ mapGet secretComplete.Data "api_token") = .ok ⟨403, bodyInvalidToken⟩ ∧
    plainDecode bodyInvalidToken = some ⟨false, [⟨1000, "Invalid API Token"⟩]⟩ ∧
    validateToken (fun _ => .ok ⟨403, bodyInvalidToken⟩) plainDecode secretComplete
      = some (some ("failed cloudflare token validation: expected 200 OK , got "
          ++ toString 403 ++ ": " ++ "Invalid API Token")) :=
  ⟨rfl, by decide,
    (C17_validateToken_maps_the_answer (fun _ => .ok ⟨403, bodyInvalidToken⟩) plainDecode
      secretComplete ⟨403, bodyInvalidToken⟩ rfl).2.2.2 (by decide) (by decide)
      ⟨false, [⟨1000, "Invalid API Token"⟩]⟩ ⟨1000, "Invalid API Token"⟩ [] (by decide) rfl⟩

/-- C18 (counterexample): two classes of this controller whose credential has no
`domain`, so that the field check fails with `secret does not contain a domain key`.
On the class without conditions the reconcile updates the status and leaves the
conditions empty: there is no `Accepted`-type condition. On the class with the pending
`Accepted` condition the message written is the error of `Reconciler.validate`, the
message of the field check behind a prefix. -/
theorem C18_reject_adds_no_condition :
    validateConfig secretNoDomain = some "secret does not contain a domain key" ∧
    gateway_class.Reconcile (envOf secretNoDomain ⟨200, ""⟩) (.ok classNoConditions)
      = some { result := defaultResult, err := none,
               gatewayClass := some classNoConditions,
               statusUpdates := [classNoConditions] } ∧
    classNoConditions.Conditions = [] ∧
    gateway_class.Reconcile (envOf secretNoDomain ⟨200, ""⟩) (.ok classPending)
      = some { result := defaultResult, err := none,
               gatewayClass := some { classPending with
                 Conditions := [rejectedCondition 1700000000
                   ("failed to create gatewayclass validator: "
                     ++ "secret does not contain a domain key")] },
               statusUpdates := [{ classPending with
                 Conditions := [rejectedCondition 1700000000
                   ("failed to create gatewayclass validator: "
                     ++ "secret does not contain a domain key")] }] } := by
  decide

/-- C18 (amended): for a class of this controller whose status conditions hold an
`Accepted`-type condition and whose credential the store returns, the reconcile
returns the default requeue and no error, calls `Status().Update` once with the class
it leaves, and in that class every `Accepted`-type condition is the one written and
the conditions of other types are unchanged: status `False` with the message
`failed to create gatewayclass validator: ` followed by the message of the field check
when that check fails, status `False` with `failed to validate token: ` followed by the
message of the token check when that one fails, and status `True` when both pass. -/
theorem C18_accepted_condition_is_rewritten (E : Env)
    (gatewayClass : gatewayv1.GatewayClass) (parametersRef : gatewayv1.ParametersReference)
    (secret : Secret)
    (howned : gatewayClass.ControllerName = controller.Name)
    (href : gatewayClass.ParametersRef = some parametersRef)
    (hsecret : E.GetSecret "default" parametersRef.Name = .ok secret)
    (hhas : ∃ c ∈ gatewayClass.Conditions, c.Type_ = "Accepted") :
    (∀ e, validateConfig secret = some e →
      ∃ after, gateway_class.Reconcile E (.ok gatewayClass)
          = some { result := defaultResult, err := none, gatewayClass := some after,
                   statusUpdates := [after] } ∧
        ConditionsRewritten
          (rejectedCondition E.Now ("failed to create gatewayclass validator: " ++ e))
          gatewayClass.Conditions after.Conditions) ∧
    (validateConfig secret = none →
      ∀ e, validateToken E.Do E.Decode secret = some (some e) →
        ∃ after, gateway_class.Reconcile E (.ok gatewayClass)
            = some { result := defaultResult, err := none, gatewayClass := some after,
                     statusUpdates := [after] } ∧
          ConditionsRewritten (rejectedCondition E.Now ("failed to validate token: " ++ e))
            gatewayClass.Conditions after.Conditions) ∧
    (validateConfig secret = none → validateToken E.Do E.Decode secret = some none →
      ∃ after, gateway_class.Reconcile E (.ok gatewayClass)
          = some { result := defaultResult, err := none, gatewayClass := some after,
                   statusUpdates := [after] } ∧
        ConditionsRewritten (acceptedCondition E.Now) gatewayClass.Conditions
          after.Conditions) := by
  have hrec := Reconcile_of_validate E gatewayClass howned
  refine ⟨?_, ?_, ?_⟩
  · intro e he
    have hv : validate E gatewayClass
        = some (some ("failed to create gatewayclass validator: " ++ e)) := by
      simp [gateway_class.validate, href, hsecret, he]
    exact ⟨_, hrec.1 _ hv, replaceAccepted_rewritten _ rfl _ hhas⟩
  · intro hc e he
    have hv : validate E gatewayClass = some (some ("failed to validate token: " ++ e)) := by
      simp [gateway_class.validate, href, hsecret, hc, he]
    exact ⟨_, hrec.1 _ hv, replaceAccepted_rewritten _ rfl _ hhas⟩
  · intro hc ht
    have hv : validate E gatewayClass = some none := by
      simp [gateway_class.validate, href, hsecret, hc, ht]
    exact ⟨_, hrec.2 hv, replaceAccepted_rewritten _ rfl _ hhas⟩

theorem C18_accepted_condition_is_rewritten_witness :
    classPending.ControllerName = controller.Name ∧
    (∃ c ∈ classPending.Conditions, c.Type_ = "Accepted") ∧
    validateConfig secretNoDomain = some "secret does not contain a domain key" ∧
    ∃ after, gateway_class.Reconcile (envOf secretNoDomain ⟨200, ""⟩) (.ok classPending)
        = some { result := defaultResult, err := none, gatewayClass := some after,
                 statusUpdates := [after] } ∧
      ConditionsRewritten
        (rejectedCondition (envOf secretNoDomain ⟨200, ""⟩).Now
          ("failed to create gatewayclass validator: "
            ++ "secret does not contain a domain key"))
        classPending.Conditions after.Conditions :=
  ⟨rfl, by decide, by decide,
    (C18_accepted_condition_is_rewritten (envOf secretNoDomain ⟨200, ""⟩) classPending
      { Group := "", Kind := "Secret", Name := "cloudflare", Namespace := none }
      secretNoDomain rfl rfl rfl (by decide)).1
      "secret does not contain a domain key" (by decide)⟩

/-- C19 (defect of the code): `isMine` hands a nil class pointer to the lookup, which
the client refuses with `expected pointer, but got nil`. For the gateway `gw1` whose
class is absent from the store, `isMine` returns not-owned with an error and the
reconcile returns that error with the requeue after 60 seconds, not a stop without
error. For the same gateway with its class in the store, the class carrying the
identity of this controller, the answer is the same: the gateway is not found owned.
For no clients, world or gateway does `isMine` answer owned. -/
theorem C19_isMine_fails_on_its_nil_class_pointer :
    gateway.worldNoClass.classes.lookup "cloudflare" = none ∧
    gateway.isMine (gateway.worldClients gateway.nextTunnelID gateway.noFaults)
        gateway.worldNoClass (some gateway.gatewayOne)
      = some (false, some "failed to get gateway: expected pointer, but got nil") ∧
    (gateway.Reconcile (gateway.worldClients gateway.nextTunnelID gateway.noFaults)
        k8s.drawsExample gateway.worldNoClass "default" "gw1").map (fun o => (o.result, o.err))
      = some ({ Requeue := true, RequeueAfter := 60 },
          some "failed to get gateway: expected pointer, but got nil") ∧
    (gateway.worldFresh.classes.lookup "cloudflare").map (fun c => c.ControllerName)
      = some controller.Name ∧
    gateway.isMine (gateway.worldClients gateway.nextTunnelID gateway.noFaults)
        gateway.worldFresh (some gateway.gatewayOne)
      = some (false, some "failed to get gateway: expected pointer, but got nil") ∧
    (gateway.Reconcile (gateway.worldClients gateway.nextTunnelID gateway.noFaults)
        k8s.drawsExample gateway.worldFresh "default" "gw1").map (fun o => (o.result, o.err))
      = some ({ Requeue := true, RequeueAfter := 60 },
          some "failed to get gateway: expected pointer, but got nil") ∧
    (∀ (ω : Type) (C : gateway.Clients ω) (w : ω) (gw : Option gatewayv1.Gateway),
      gateway.isMine C w gw = none ∨ ∃ err, gateway.isMine C w gw = some (false, some err)) := by
  refine ⟨by decide, by decide, by decide, by decide, by decide, by decide, ?_⟩
  intro ω C w gw
  unfold gateway.isMine
  cases gw with
  | none => exact Or.inr ⟨_, rfl⟩
  | some g =>
    cases h : C.GetGatewayClassIntoNil w g.GatewayClassName with
    | none => exact Or.inl (by simp [h])
    | some r =>
      cases r with
      | none => exact Or.inr ⟨"returned nil gatewayClass", by simp [h]⟩
      | some err => exact Or.inr ⟨"failed to get gateway: " ++ err.Message, by simp [h]⟩

/-- C20: the alphabet has 63 distinct symbols, the 10 digits, the 26 upper-case
letters, the 26 lower-case letters and the hyphen. For a length `n ≥ 0` and a random
source whose values are below 63, `GenerateRandomString` does not panic (no index is
out of range); a string it returns has exactly `n` symbols, all of the alphabet; it
returns a string when the first `n` draws succeed; and an error it returns is the
error of one of the first `n` draws. -/
theorem C20_generated_secret_is_n_letters (randInt : Nat → Nat → Except String Nat)
    (n : Int) (hn : 0 ≤ n) (hsrc : ∀ i v, randInt i 63 = .ok v → v < 63) :
    (k8s.letters.length = 63 ∧ k8s.letters.data.Nodup ∧
      k8s.letters.data = "0123456789".data ++ "ABCDEFGHIJKLMNOPQRSTUVWXYZ".data
        ++ "abcdefghijklmnopqrstuvwxyz".data ++ ['-']) ∧
    (∃ r, k8s.GenerateRandomString randInt n = some r) ∧
    (∀ s, k8s.GenerateRandomString randInt n = some (.ok s) →
      (s.length : Int) = n ∧ ∀ c ∈ s.data, c ∈ k8s.letters.data) ∧
    ((∀ i : Nat, (i : Int) < n → ∃ v, randInt i 63 = .ok v) →
      ∃ s, k8s.GenerateRandomString randInt n = some (.ok s)) ∧
    (∀ e, k8s.GenerateRandomString randInt n = some (.error e) →
      ∃ i : Nat, (i : Int) < n ∧ randInt i 63 = .error e) := by
  have hdef : k8s.GenerateRandomString randInt n = k8s.generateLoop randInt 0 n.toNat [] := by
    unfold k8s.GenerateRandomString
    rw [if_neg (by omega)]
  have hspec := k8s.generateLoop_spec randInt hsrc n.toNat 0 []
  rw [hdef]
  refine ⟨⟨by decide, by decide, by decide⟩, ?_, ?_, ?_, ?_⟩
  · rcases hspec with ⟨tail, h1, _⟩ | ⟨e, j, h1, _⟩
    · exact ⟨_, h1⟩
    · exact ⟨_, h1⟩
  · intro s hs
    rcases hspec with ⟨tail, h1, h2, h3, _⟩ | ⟨e, j, h1, _⟩
    · rw [h1] at hs
      have hs2 : s = String.mk tail := by simpa using hs.symm
      subst hs2
      refine ⟨?_, h3⟩
      simp only [String.length]
      omega
    · rw [h1] at hs
      simp at hs
  · intro hall
    rcases hspec with ⟨tail, h1, _⟩ | ⟨e, j, _, h2, h3⟩
    · exact ⟨_, h1⟩
    · obtain ⟨v, hv⟩ := hall j (by omega)
      rw [Nat.zero_add] at h3
      rw [h3] at hv
      cases hv
  · intro e he
    rcases hspec with ⟨tail, h1, _⟩ | ⟨e2, j, h1, h2, h3⟩
    · rw [h1] at he
      simp at he
    · rw [h1] at he
      have : e2 = e := by simpa using he
      subst this
      exact ⟨j, by omega, by simpa using h3⟩

theorem C20_generated_secret_is_n_letters_witness :
    (0 : Int) ≤ 3 ∧ (∀ i v, k8s.drawsExample i 63 = .ok v → v < 63) ∧
    k8s.GenerateRandomString k8s.drawsExample 3 = some (.ok "5Pj") ∧
    ∀ s, k8s.GenerateRandomString k8s.drawsExample 3 = some (.ok s) →
      (s.length : Int) = 3 ∧ ∀ c ∈ s.data, c ∈ k8s.letters.data :=
  ⟨by decide, k8s.drawsExample_lt, by decide,
    (C20_generated_secret_is_n_letters k8s.drawsExample 3 (by decide)
      k8s.drawsExample_lt).2.2.1⟩

/-- C21 (defect of the code): `k8s.NewTunnelSecretData`, the constructor
`ensureTunnelSecret` uses, never fails: with an empty account id it returns the record
and a nil error, as it does for every three strings, whereas `cf.NewTunnelCredentials`
rejects the same values. `ensureTunnelSecret` then asks the store to create the
credential with an empty `AccountTag`. The record does carry the three values and is
encoded under the keys `TunnelSecret`, `TunnelID` and `AccountTag`. -/
theorem C21_secret_data_constructor_never_fails :
    k8s.NewTunnelSecretData "tunnel-0" "" "s3cr3t"
      = .ok { Secret := "s3cr3t", TunnelID := "tunnel-0", AccountID := "" } ∧
    (∀ tunnelID accountID tunnelSecret : String,
      k8s.NewTunnelSecretData tunnelID accountID tunnelSecret
        = .ok { Secret := tunnelSecret, TunnelID := tunnelID, AccountID := accountID }) ∧
    cf.NewTunnelCredentials "" "tunnel-0" "s3cr3t" = .error "AccountID is empty" ∧
    k8s.encodeSecretData { Secret := "s3cr3t", TunnelID := "tunnel-0", AccountID := "" }
      = "\x7b\"TunnelSecret\":\"s3cr3t\",\"TunnelID\":\"tunnel-0\",\"AccountTag\":\"\"\x7d" ∧
    (gateway.ensureTunnelSecret (gateway.worldClients gateway.nextTunnelID gateway.noFaults)
        ⟨"gw1", "default", "tunnel-0", "s3cr3t", ""⟩ gateway.worldFresh).err = none ∧
    (gateway.ensureTunnelSecret (gateway.worldClients gateway.nextTunnelID gateway.noFaults)
        ⟨"gw1", "default", "tunnel-0", "s3cr3t", ""⟩ gateway.worldFresh).calls.map
        (fun s => mapGet s.StringData "creds.json")
      = ["\x7b\"TunnelSecret\":\"s3cr3t\",\"TunnelID\":\"tunnel-0\",\"AccountTag\":\"\"\x7d"] := by
  refine ⟨by decide, fun _ _ _ => rfl, by decide, by decide, by decide, by decide⟩

/-- C22 (defect of the code): the port of the target is not rendered in decimal. The
conversion `string(port)` of the integer port gives the character with that code
point: for the route with the backend `web` in `default` on port 8080 the rule of the
hostname has the target `http://web.default.svc.cluster.local:` followed by the one
character U+1F90, not by `8080`; port 80 would give the letter `P`. -/
theorem C22_port_is_rendered_as_a_code_point :
    runeString 8080 = "\u1F90" ∧ runeString 80 = "P" ∧
    backendService routeOneHostname = some "http://web.default.svc.cluster.local:\u1F90" ∧
    (buildRoutingFragment routeOneHostname).map
        (fun rules => (rules.filter (fun r => r.Hostname = "a.example.com")).map
          (fun r => r.Service))
      = some ["http://web.default.svc.cluster.local:\u1F90"] ∧
    "http://web.default.svc.cluster.local:\u1F90" ≠ "http://web.default.svc.cluster.local:8080" := by
  decide

/-- C23: for a persisted artifact that satisfies the construction invariants and whose
hostnames are empty or at least two characters long, and for every candidate
fragment, `upsertConfigMap` does not panic and the merged artifact it serializes
exists, satisfies the construction invariants (tunnel id non-empty, rules non-empty,
last rule a catch-all), has the tunnel id and the credentials path of the persisted
artifact, and has a rule with the hostname of every persisted rule. -/
theorem C23_merge_preserves_validity (existing : TunnelConfigFile)
    (newConfig : List IngressConfig) (hinv : ConstructionInvariants existing)
    (hlen : ∀ r ∈ existing.Ingress, r.Hostname = "" ∨ 2 ≤ r.Hostname.length) :
    ∃ merged, mergedConfig existing newConfig = some merged ∧
      ConstructionInvariants merged ∧ merged.TunnelId = existing.TunnelId ∧
      merged.CredentialsFilePath = existing.CredentialsFilePath ∧
      (∀ r ∈ existing.Ingress, ∃ m ∈ merged.Ingress, m.Hostname = r.Hostname) ∧
      ∀ (J : JsonCodec) (Update : http_route.ConfigMap → Option String)
        (configMap : http_route.ConfigMap),
        J.Unmarshal (configMap.get k8s.ConfigYamlFileName) = .ok existing →
        ∃ result, upsertConfigMap J Update configMap newConfig = some result := by
  obtain ⟨merged, hm, hvalid, hid, hpath, hkeep, _⟩ :=
    mergedConfig_valid existing newConfig hinv
      (fun r hr => sliceable_of_length _ (hlen r hr))
  refine ⟨merged, hm, hvalid, hid, hpath, fun r hr => ⟨r, hkeep r hr, rfl⟩, ?_⟩
  intro J Update configMap hparse
  cases hj : J.Marshal merged with
  | error e =>
    exact ⟨_, upsertConfigMap_marshal_fails J Update configMap newConfig existing merged e
      hparse hm hj⟩
  | ok text =>
    by_cases he : text = configMap.get k8s.ConfigYamlFileName
    · exact ⟨_, upsertConfigMap_unchanged J Update configMap newConfig existing merged
        hparse hm (he ▸ hj)⟩
    · exact ⟨_, upsertConfigMap_writes J Update configMap newConfig existing merged text
        hparse hm hj he⟩

theorem C23_merge_preserves_validity_witness :
    ConstructionInvariants ⟨"t1", k8s.DeploymentCredentialFilePath,
      [⟨"a.example.com", "http://s1:80"⟩, ⟨"", "http_status:404"⟩]⟩ ∧
    mergedConfig ⟨"t1", k8s.DeploymentCredentialFilePath,
        [⟨"a.example.com", "http://s1:80"⟩, ⟨"", "http_status:404"⟩]⟩
        [⟨"a.example.com", "http://s1:80"⟩, ⟨"b.example.com", "http://s2:80"⟩]
      = some ⟨"t1", k8s.DeploymentCredentialFilePath,
          [⟨"a.example.com", "http://s1:80"⟩, ⟨"a.example.com", "http://s1:80"⟩,
            ⟨"", "http_status:404"⟩]⟩ ∧
    ∃ merged,
      mergedConfig ⟨"t1", k8s.DeploymentCredentialFilePath,
          [⟨"a.example.com", "http://s1:80"⟩, ⟨"", "http_status:404"⟩]⟩
          [⟨"a.example.com", "http://s1:80"⟩, ⟨"b.example.com", "http://s2:80"⟩]
        = some merged ∧ ConstructionInvariants merged :=
  have hinv : ConstructionInvariants ⟨"t1", k8s.DeploymentCredentialFilePath,
      [⟨"a.example.com", "http://s1:80"⟩, ⟨"", "http_status:404"⟩]⟩ :=
    ⟨by decide, by decide, ⟨"", "http_status:404"⟩, rfl, rfl⟩
  ⟨hinv, by decide,
    (C23_merge_preserves_validity _
      [⟨"a.example.com", "http://s1:80"⟩, ⟨"b.example.com", "http://s2:80"⟩] hinv
      (by decide)).imp (fun _ h => ⟨h.1, h.2.1⟩)⟩
